import Mathlib

/-!
# ktap `userspace/symbol.c`: symbol and SDT-note extraction

A shallow embedding of `symbol.c`.  The functions of the file keep their
names.  The libelf handle `Elf *` is embedded as the record `Elf`
holding what the libelf calls used by `symbol.c` return for that file.

Conventions of the embedding

* machine words are `Nat`; arithmetic that can wrap is reduced modulo
  the width of its C type;
* pointers into a data buffer are indices into the byte list `d_buf`;
* a C string is the list of its bytes, terminator excluded;
* `Option` results: `none` is undefined behaviour of the C program
  (a read past the end of a buffer, a division by zero, `strdup(NULL)`,
  `strcmp` with `NULL`), unless the doc comment of the definition says
  that `none` stands for a `NULL` result;
* one undefined step is recorded and not propagated: on the failure path
  of `realloc_symbols` the loop of `free_dso_symbols` reads and frees
  one name past the array; the embedding returns the indices it reads
  and lets the run go on with the
  `NULL` list, so a statement about a run after a failed growth of a
  non-empty list describes the control flow of the code and not a
  guaranteed outcome;
* the allocator is a parameter `alloc`: `alloc k` tells whether the
  `k`-th call of `realloc` of one extraction succeeds; `strdup` of a
  string succeeds;
* the byte order of the machine is a parameter `host` wherever the code
  reads a multi-byte object from memory.
-/

namespace Ktap

/-! ## ELF constants (from `<elf.h>`) -/

def PT_LOAD : Nat := 1
def SHT_SYMTAB : Nat := 2
def SHT_NOTE : Nat := 7
def SHF_ALLOC : Nat := 2
def STT_FUNC : Nat := 2
def INT_MAX : Nat := 2147483647

/-- The bytes of an ASCII string literal, terminator excluded. -/
def cstr (s : String) : List Nat := s.toList.map Char.toNat

def SDT_NOTE_TYPE : Nat := 3
def SDT_NOTE_COUNT : Nat := 3
def SDT_NOTE_SCN : List Nat := cstr ".note.stapsdt"
def SDT_NOTE_NAME : List Nat := cstr "stapsdt"

/-- The value of `sizeof(SDT_NOTE_NAME)`: the characters and the terminator. -/
def sizeof_SDT_NOTE_NAME : Nat := SDT_NOTE_NAME.length + 1

/-- The macro `GELF_ST_TYPE(val)` is `(val) & 0xf`. -/
def GELF_ST_TYPE (st_info : Nat) : Nat := st_info &&& 0xf

/-! ## Data model -/

/-- The fields of `GElf_Phdr` read by `symbol.c`. -/
structure GElf_Phdr where
  p_type : Nat
  p_offset : Nat
  p_vaddr : Nat
  deriving DecidableEq, Repr

/-- The fields of `GElf_Shdr` read by `symbol.c`. -/
structure GElf_Shdr where
  sh_name : Nat
  sh_type : Nat
  sh_flags : Nat
  sh_link : Nat
  sh_size : Nat
  sh_entsize : Nat
  deriving DecidableEq, Repr

/-- The fields of `GElf_Sym` read by `symbol.c`. -/
structure GElf_Sym where
  st_name : Nat
  st_info : Nat
  st_value : Nat
  deriving DecidableEq, Repr

/-- The fields of `GElf_Nhdr`. -/
structure GElf_Nhdr where
  n_namesz : Nat
  n_descsz : Nat
  n_type : Nat
  deriving DecidableEq, Repr

/-- An `Elf_Data` descriptor of a section read from a file: the bytes
`d_buf` in memory representation (`d_size` is their number) and, for a
symbol table, the entries that `gelf_getsym` decodes from them. -/
structure Elf_Data where
  d_buf : List Nat
  syms : List GElf_Sym
  deriving DecidableEq, Repr

/-- A section: its header (`gelf_getshdr`) and its single data
descriptor; `data = none` when the contents cannot be read, in which
case `elf_getdata` and `elf_rawdata` return `NULL`. -/
structure Elf_Scn where
  shdr : GElf_Shdr
  data : Option Elf_Data
  deriving DecidableEq, Repr

/-- The value of `e_ident[EI_CLASS]` of a file of kind `ELF_K_ELF`. -/
inductive ElfClass where
  | ELFCLASS32
  | ELFCLASS64
  deriving DecidableEq, Repr

/-- A byte order: `e_ident[EI_DATA]` of a file of kind `ELF_K_ELF`, and
the byte order of the machine running ktap. -/
inductive ElfData where
  | ELFDATA2LSB
  | ELFDATA2MSB
  deriving DecidableEq, Repr

/-- An opened ELF file as libelf presents it.  `scns` are the sections
enumerated by `elf_nextscn`, that is those of index 1, 2, ... in
order.  `strptr ndx off` is the result of `elf_strptr(elf, ndx, off)`,
`none` standing for `NULL`. -/
structure Elf where
  ei_class : ElfClass
  ei_data : ElfData
  e_shstrndx : Nat
  phdrs : List GElf_Phdr
  scns : List Elf_Scn
  strptr : Nat → Nat → Option (List Nat)

/-- The C struct `dso_symbol` of `symbol.h`: an owned name and an address. -/
structure dso_symbol where
  name : List Nat
  addr : Nat
  deriving DecidableEq, Repr, Inhabited

/-- Modelled from the spec: the type `vaddr_t` is declared in `symbol.h`,
which is not among the sources; the spec gives the address of a symbol
as an unsigned 64-bit value, so `sizeof(vaddr_t)` is 8. -/
def sizeof_vaddr : Nat := 8

/-- Unsigned subtraction in `vaddr_t`. -/
def vaddr_sub (a b : Nat) : Nat :=
  (a % 2 ^ (8 * sizeof_vaddr) + 2 ^ (8 * sizeof_vaddr) - b % 2 ^ (8 * sizeof_vaddr))
    % 2 ^ (8 * sizeof_vaddr)

/-! ## `find_load_address` -/

/-- The test of `find_load_address` on one program header, negated:
`header.p_type == PT_LOAD && header.p_offset == 0`. -/
def is_load_zero (header : GElf_Phdr) : Bool :=
  !(header.p_type != PT_LOAD || header.p_offset != 0)

/-- The loop `while (headers-- > 0)` of `find_load_address`; the argument
is the value of `headers` tested by the loop condition.  `gelf_getphdr`
succeeds for every index below `elf_getphdrnum`, so the last branch is
not reached from `find_load_address`. -/
def find_load_address_loop (phdrs : List GElf_Phdr) : Nat → Nat
  | 0 => 0
  | headers + 1 =>
    match phdrs[headers]? with
    | some header =>
      if header.p_type != PT_LOAD || header.p_offset != 0 then
        find_load_address_loop phdrs headers
      else
        header.p_vaddr
    | none => find_load_address_loop phdrs headers

/-- The function `find_load_address`. -/
def find_load_address (elf : Elf) : Nat :=
  find_load_address_loop elf.phdrs elf.phdrs.length

/-! ## The symbol list -/

/-- The function `free_dso_symbols(symbols, symbols_count)`: the result
is the list of the indices `i` whose `symbols[i].name` the loop reads and
frees, in order; the array itself is freed afterwards. -/
def free_dso_symbols (symbols_count : Nat) : List Nat :=
  List.range symbols_count

/-- The array that `realloc(symbols, sizeof(*symbols) * symbols_count)`
returns when it succeeds: `symbols_count` slots, the old contents kept up
to the smaller of the two sizes, the new slots holding no defined value
(here the default entry). -/
def realloc_array (symbols : Option (List dso_symbol)) (symbols_count : Nat) :
    List dso_symbol :=
  let old := (symbols.getD []).take symbols_count
  old ++ List.replicate (symbols_count - old.length) default

/-- The function `realloc_symbols(symbols, symbols_count)`.  `ok` tells
whether this call of `realloc` succeeds.  The first component is the
returned pointer (`none` is `NULL`); the second lists the indices read by
`free_dso_symbols` on the failure path.  The callers pass the count
after growth, so that path reads one index past the stored entries,
which is undefined in C; here the read is recorded in the second
component and the run continues with the `NULL` pointer. -/
def realloc_symbols (ok : Bool) (symbols : Option (List dso_symbol))
    (symbols_count : Nat) : Option (List dso_symbol) × List Nat :=
  let new := if ok then some (realloc_array symbols symbols_count) else none
  if new.isNone && symbols.isSome then
    (new, free_dso_symbols symbols_count)
  else
    (new, [])

/-- The statement `memcpy(&(*symbols)[symbols_count - 1], &symbol, sizeof(symbol))`. -/
def store_symbol (symbols : List dso_symbol) (symbols_count : Nat) (symbol : dso_symbol) :
    List dso_symbol :=
  symbols.set (symbols_count - 1) symbol

/-! ## `dso_symbols` -/

/-- The function `elf_symbols`: `shdr.sh_size / shdr.sh_entsize` in
`size_t`; `none` is the division by zero. -/
def elf_symbols (shdr : GElf_Shdr) : Option Nat :=
  if shdr.sh_entsize = 0 then none else some (shdr.sh_size / shdr.sh_entsize)

/-- The libelf call `elf_getdata(scn, data)` on a section read from a
file, which has one data descriptor.  With `data == NULL` the result is
the first descriptor of `scn`.  Otherwise `data` has to be a descriptor
of `scn` and the result is the descriptor after it: `NULL` when `data`
is the only descriptor of `scn`, and `NULL` again (libelf error "data
mismatch") when `data` belongs to another section.  `dso_symbols` passes
the descriptor kept from the previous symbol table; `dso_sdt_notes`
passes `NULL`. -/
def elf_getdata (scn : Elf_Scn) (data : Option Elf_Data) : Option Elf_Data :=
  match data with
  | none => scn.data
  | some _ => none

/-- The libelf call `gelf_getsym(data, ndx, &sym)`: the result is the
value of `sym` after the call, which is left as it was when the call
fails (`data == NULL`, or `ndx` past the last entry). -/
def gelf_getsym (data : Option Elf_Data) (ndx : Nat) (sym : GElf_Sym) : GElf_Sym :=
  match data with
  | none => sym
  | some d => (d.syms[ndx]?).getD sym

/-- The local variables of `dso_symbols` that live across iterations,
with `*symbols`, and the number of `realloc` calls made so far. -/
structure SymState where
  elf_data : Option Elf_Data
  sym : GElf_Sym
  symbols : Option (List dso_symbol)
  symbols_count : Nat
  calls : Nat
  deriving DecidableEq, Repr

/-- The body of the `for` loop of `dso_symbols` at index `i`.  The
boolean of the result is `true` when the body leaves the loop by `break`.
`alloc k` tells whether the `k`-th call of `realloc` succeeds. -/
def dso_symbols_body (alloc : Nat → Bool) (elf : Elf) (load_address : Nat)
    (shdr : GElf_Shdr) (i : Nat) (st : SymState) : Option (Bool × SymState) :=
  let sym := gelf_getsym st.elf_data i st.sym
  if GELF_ST_TYPE sym.st_info != STT_FUNC then
    some (false, { st with sym := sym })
  else
    let symbols_count := st.symbols_count + 1
    match (realloc_symbols (alloc st.calls) st.symbols symbols_count).1 with
    | none =>
      some (true, { st with sym := sym, symbols := none, symbols_count := 0,
                            calls := st.calls + 1 })
    | some arr =>
      match elf.strptr shdr.sh_link sym.st_name with
      | none => none
      | some name =>
        let symbol : dso_symbol := ⟨name, vaddr_sub sym.st_value load_address⟩
        some (false, { st with sym := sym,
                               symbols := some (store_symbol arr symbols_count symbol),
                               symbols_count := symbols_count,
                               calls := st.calls + 1 })

/-- The loop `for (i = 0; i < elf_symbols(shdr); i++)` of `dso_symbols`
from index `i` on, `n` being the number of indices left below
`count = elf_symbols(shdr)`.  The increment of the `int i` overflows at
`INT_MAX`. -/
def dso_symbols_for (alloc : Nat → Bool) (elf : Elf) (load_address : Nat)
    (shdr : GElf_Shdr) : Nat → Nat → SymState → Option SymState
  | 0, _, st => some st
  | n + 1, i, st =>
    match dso_symbols_body alloc elf load_address shdr i st with
    | none => none
    | some (true, st1) => some st1
    | some (false, st1) =>
      if i ≥ INT_MAX then none
      else dso_symbols_for alloc elf load_address shdr n (i + 1) st1

/-- The loop `while ((scn = elf_nextscn(elf, scn)))` of `dso_symbols` over
the sections not yet visited. -/
def dso_symbols_scns (alloc : Nat → Bool) (elf : Elf) (load_address : Nat) :
    List Elf_Scn → SymState → Option SymState
  | [], st => some st
  | scn :: rest, st =>
    if scn.shdr.sh_type != SHT_SYMTAB then
      dso_symbols_scns alloc elf load_address rest st
    else
      let st1 := { st with elf_data := elf_getdata scn st.elf_data }
      match elf_symbols scn.shdr with
      | none => none
      | some count =>
        match dso_symbols_for alloc elf load_address scn.shdr count 0 st1 with
        | none => none
        | some st2 => dso_symbols_scns alloc elf load_address rest st2

/-- The function `dso_symbols(symbols, elf)`.  `symbols` is the value of
`*symbols` at the call and `sym0` the indeterminate initial value of the
local `sym`; the result is the returned count with the final `*symbols`. -/
def dso_symbols (alloc : Nat → Bool) (symbols : Option (List dso_symbol)) (elf : Elf)
    (sym0 : GElf_Sym) : Option (Nat × Option (List dso_symbol)) :=
  let load_address := find_load_address elf
  if load_address = 0 then
    some (0, symbols)
  else
    match dso_symbols_scns alloc elf load_address elf.scns ⟨none, sym0, symbols, 0, 0⟩ with
    | none => none
    | some st => some (st.symbols_count, st.symbols)

/-! ## Bytes and words -/

/-- The unsigned value of a byte sequence, least significant byte first. -/
def le_decode : List Nat → Nat
  | [] => 0
  | b :: bs => b + 256 * le_decode bs

/-- The unsigned value of a byte sequence stored in byte order `order`. -/
def decode (order : ElfData) (bs : List Nat) : Nat :=
  match order with
  | .ELFDATA2LSB => le_decode bs
  | .ELFDATA2MSB => le_decode bs.reverse

/-- The `width`-byte object at index `off` of `buf`, read by a machine of
byte order `host`. -/
def load (host : ElfData) (buf : List Nat) (off width : Nat) : Nat :=
  decode host ((buf.drop off).take width)

/-- The call `memchr(s, 0, n)` where `s` points at index `p` of a buffer
whose bytes from `p` on are the first argument.  `some none` is the
result `NULL`, `some (some q)` a pointer to index `q`, and `none` a read
past the end of the buffer. -/
def memchr_zero : List Nat → Nat → Nat → Option (Option Nat)
  | [], _, n => if n = 0 then some none else none
  | b :: bs, p, n =>
    if n = 0 then some none
    else if b = 0 then some (some p)
    else memchr_zero bs (p + 1) (n - 1)

/-- The C string that starts a byte sequence: the bytes before the first
zero byte; `none` when the sequence ends before a zero byte is met. -/
def c_string : List Nat → Option (List Nat)
  | [] => none
  | b :: bs => if b = 0 then some [] else (c_string bs).map (fun t => b :: t)

/-- The call `strdup(s)` where `s` points at index `p` of `buf`. -/
def strdup_at (buf : List Nat) (p : Nat) : Option (List Nat) :=
  c_string (buf.drop p)

/-! ## libelf calls of the note scanner -/

/-- The size of one `ELF_T_ADDR` object in the file. -/
def addr_size (c : ElfClass) : Nat :=
  match c with
  | .ELFCLASS32 => 4
  | .ELFCLASS64 => 8

/-- The libelf call `gelf_fsize(elf, ELF_T_ADDR, count, EV_CURRENT)`. -/
def gelf_fsize_addr (elf : Elf) (count : Nat) : Nat :=
  count * addr_size elf.ei_class

/-- Byte swap of `count` consecutive objects of `w` bytes. -/
def swap_objects (w : Nat) : Nat → List Nat → List Nat
  | 0, _ => []
  | count + 1, bs => (bs.take w).reverse ++ swap_objects w count (bs.drop w)

/-- The libelf call `gelf_xlatetom(elf, &dst, &src, elf_getident(elf)[EI_DATA])`
for `count` objects of type `ELF_T_ADDR`: the bytes written to `dst.d_buf`.
The objects are copied when the file and the machine have the same byte
order and byte-swapped otherwise.  For a file of kind `ELF_K_ELF` the
encoding is valid and the call does not fail. -/
def gelf_xlatetom_addr (elf : Elf) (host : ElfData) (count : Nat) (src : List Nat) :
    List Nat :=
  if elf.ei_data = host then src
  else swap_objects (addr_size elf.ei_class) count src

/-- The macro `NOTE_ALIGN4(n)` of libelf, `((n) + 3) & -4U`. -/
def NOTE_ALIGN4 (n : Nat) : Nat :=
  (n + 3) % 2 ^ 32 / 4 * 4

/-- What `gelf_getnote` returns for one note record: the offset of the
next record, the header, and the offsets of name and descriptor. -/
structure NoteRec where
  next : Nat
  nhdr : GElf_Nhdr
  name_off : Nat
  desc_off : Nat
  deriving DecidableEq, Repr

/-- The libelf call `gelf_getnote(data, offset, &nhdr, &name_off, &desc_off)`
on data of type `ELF_T_NHDR`, whose 12-byte headers are in the byte order
of the machine; `none` is the result 0 (no record at `offset`). -/
def gelf_getnote (host : ElfData) (data : Option Elf_Data) (offset : Nat) : Option NoteRec :=
  match data with
  | none => none
  | some d =>
    let size := d.d_buf.length
    if offset > size ∨ size - offset < 12 then none
    else
      let nhdr : GElf_Nhdr :=
        ⟨load host d.d_buf offset 4, load host d.d_buf (offset + 4) 4,
         load host d.d_buf (offset + 8) 4⟩
      let name_off := offset + 12
      if nhdr.n_namesz > size ∨ name_off > size - nhdr.n_namesz then none
      else
        let descsz := NOTE_ALIGN4 nhdr.n_descsz
        let desc_off := NOTE_ALIGN4 (name_off + nhdr.n_namesz)
        if desc_off > size ∨ size - desc_off < descsz ∨ (descsz = 0 ∧ nhdr.n_descsz ≠ 0) then
          none
        else
          some ⟨desc_off + descsz, nhdr, name_off, desc_off⟩

/-- The section with index `ndx` (`elf_getscn`); index 0 is the reserved
null section, which has no contents. -/
def elf_getscn (elf : Elf) (ndx : Nat) : Option Elf_Scn :=
  if ndx = 0 then some ⟨⟨0, 0, 0, 0, 0, 0⟩, some ⟨[], []⟩⟩ else elf.scns[ndx - 1]?

/-- The libelf call `elf_rawdata(scn, NULL)`, `none` being `NULL`. -/
def elf_rawdata (scn : Option Elf_Scn) : Option Elf_Data :=
  scn.bind (fun s => s.data)

/-! ## `elf_section_by_name` -/

/-- The loop of `elf_section_by_name` over the sections not yet visited;
`shp` is the current content of `*shp`.  The result is the value of `scn`
after the loop with the content of `*shp`; `none` is `strcmp` called
with the `NULL` returned by `elf_strptr`. -/
def elf_section_by_name_loop (elf : Elf) (name : List Nat) :
    List Elf_Scn → GElf_Shdr → Option (Option Elf_Scn × GElf_Shdr)
  | [], shp => some (none, shp)
  | scn :: rest, _ =>
    match elf.strptr elf.e_shstrndx scn.shdr.sh_name with
    | none => none
    | some str =>
      if name = str then some (some scn, scn.shdr)
      else elf_section_by_name_loop elf name rest scn.shdr

/-- The function `elf_section_by_name(elf, ep, shp, name)`; `shp` is the
content of `*shp` at the call. -/
def elf_section_by_name (elf : Elf) (shp : GElf_Shdr) (name : List Nat) :
    Option (Option Elf_Scn × GElf_Shdr) :=
  if (elf_rawdata (elf_getscn elf elf.e_shstrndx)).isNone then
    some (none, shp)
  else
    elf_section_by_name_loop elf name elf.scns shp

/-! ## The SDT note scanner -/

/-- The function `sdt_note_addr(elf, data, len, type)`, `data` pointing at
index `data` of `d_buf`, on a machine of byte order `host`.  `none` is a
read past the end of `d_buf`. -/
def sdt_note_addr (elf : Elf) (host : ElfData) (d_buf : List Nat) (data len type : Nat) :
    Option Nat :=
  let d_size := gelf_fsize_addr elf SDT_NOTE_COUNT
  if type != SDT_NOTE_TYPE then some 0
  else if len < d_size + SDT_NOTE_COUNT then some 0
  else if d_buf.length < data + d_size then none
  else
    let buf := gelf_xlatetom_addr elf host SDT_NOTE_COUNT ((d_buf.drop data).take d_size)
    some (decode host (buf.take sizeof_vaddr))

/-- The length passed to `memchr` by `sdt_note_name`:
`data + nhdr->n_descsz - provider` converted to `size_t`. -/
def sdt_note_name_len (elf : Elf) (nhdr : GElf_Nhdr) (data : Nat) : Nat :=
  (data + nhdr.n_descsz + 2 ^ 64 - (data + gelf_fsize_addr elf SDT_NOTE_COUNT)) % 2 ^ 64

/-- The function `sdt_note_name(elf, nhdr, data)`: `some none` is the
result `NULL`, `some (some q)` the pointer to index `q` of `d_buf`, and
`none` a read past the end of `d_buf`. -/
def sdt_note_name (elf : Elf) (nhdr : GElf_Nhdr) (d_buf : List Nat) (data : Nat) :
    Option (Option Nat) :=
  let provider := data + gelf_fsize_addr elf SDT_NOTE_COUNT
  match memchr_zero (d_buf.drop provider) provider (sdt_note_name_len elf nhdr data) with
  | none => none
  | some none => some none
  | some (some name) => some (some (name + 1))

/-- The test of `dso_sdt_notes` on the name of the record `r`:
`nhdr.n_namesz != sizeof(SDT_NOTE_NAME) || memcmp(data->d_buf + name_off,
SDT_NOTE_NAME, sizeof(SDT_NOTE_NAME))`. -/
def note_name_differs (d_buf : List Nat) (r : NoteRec) : Bool :=
  r.nhdr.n_namesz != sizeof_SDT_NOTE_NAME
    || (d_buf.drop r.name_off).take sizeof_SDT_NOTE_NAME != SDT_NOTE_NAME ++ [0]

/-- The record `r` carries the marker: its name size is 8 and its name
bytes are those of `stapsdt` followed by the terminator. -/
def note_name_ok (d_buf : List Nat) (r : NoteRec) : Bool :=
  !note_name_differs d_buf r

/-- The variables of `dso_sdt_notes` that live across iterations:
`*symbols`, `symbols_count`, and the number of `realloc` calls so far. -/
structure NoteState where
  symbols : Option (List dso_symbol)
  symbols_count : Nat
  calls : Nat
  deriving DecidableEq, Repr

/-- The body of the `for` loop of `dso_sdt_notes` on the record `r`.  The
boolean of the result is `true` when the body leaves the loop by `break`. -/
def dso_sdt_notes_body (alloc : Nat → Bool) (elf : Elf) (host : ElfData)
    (d_buf : List Nat) (r : NoteRec) (st : NoteState) : Option (Bool × NoteState) :=
  if note_name_differs d_buf r then
    some (false, st)
  else
    match sdt_note_name elf r.nhdr d_buf r.desc_off with
    | none => none
    | some none => some (false, st)
    | some (some name) =>
      match sdt_note_addr elf host d_buf r.desc_off r.nhdr.n_descsz r.nhdr.n_type with
      | none => none
      | some vaddr =>
        if vaddr = 0 then some (false, st)
        else
          let symbols_count := st.symbols_count + 1
          match (realloc_symbols (alloc st.calls) st.symbols symbols_count).1 with
          | none => some (true, ⟨none, 0, st.calls + 1⟩)
          | some arr =>
            match strdup_at d_buf name with
            | none => none
            | some s =>
              some (false, ⟨some (store_symbol arr symbols_count ⟨s, vaddr⟩),
                            symbols_count, st.calls + 1⟩)

/-- The `for` loop of `dso_sdt_notes` from `offset` on, for at most `fuel`
calls of `gelf_getnote`; `none` is undefined behaviour in the body, or
the fuel running out. -/
def dso_sdt_notes_loop (alloc : Nat → Bool) (elf : Elf) (host : ElfData) (d : Elf_Data) :
    Nat → Nat → NoteState → Option NoteState
  | 0, _, _ => none
  | fuel + 1, offset, st =>
    match gelf_getnote host (some d) offset with
    | none => some st
    | some r =>
      match dso_sdt_notes_body alloc elf host d.d_buf r st with
      | none => none
      | some (true, st1) => some st1
      | some (false, st1) => dso_sdt_notes_loop alloc elf host d fuel r.next st1

/-- The function `dso_sdt_notes(symbols, elf)` on a machine of byte order
`host`.  `symbols` is the value of `*symbols` at the call and `shdr0` the
indeterminate initial value of the local `shdr`; the result is the
returned count with the final `*symbols`.  On a file of kind `ELF_K_ELF`
`gelf_getehdr` and `elf_getshdrstrndx` succeed.  A record takes at least
12 bytes, so `d_size + 1` calls of `gelf_getnote` exhaust the data. -/
def dso_sdt_notes (alloc : Nat → Bool) (symbols : Option (List dso_symbol)) (elf : Elf)
    (host : ElfData) (shdr0 : GElf_Shdr) : Option (Nat × Option (List dso_symbol)) :=
  match elf_section_by_name elf shdr0 SDT_NOTE_SCN with
  | none => none
  | some (none, _) => some (0, symbols)
  | some (some scn, shdr) =>
    if !(shdr.sh_type == SHT_NOTE) || (shdr.sh_flags &&& SHF_ALLOC != 0) then
      some (0, symbols)
    else
      match elf_getdata scn none with
      | none => some (0, symbols)
      | some d =>
        match dso_sdt_notes_loop alloc elf host d (d.d_buf.length + 1) 0 ⟨symbols, 0, 0⟩ with
        | none => none
        | some st => some (st.symbols_count, st.symbols)

/-! ## Auxiliary definitions of the statements -/

/-- The body of the loop of `dso_sdt_notes` run on a list of records in
turn, until the list ends or the body leaves by `break`. -/
def dso_sdt_notes_run (alloc : Nat → Bool) (elf : Elf) (host : ElfData) (d_buf : List Nat) :
    List NoteRec → NoteState → Option NoteState
  | [], st => some st
  | r :: rs, st =>
    match dso_sdt_notes_body alloc elf host d_buf r st with
    | none => none
    | some (true, st1) => some st1
    | some (false, st1) => dso_sdt_notes_run alloc elf host d_buf rs st1

/-- The entry that `dso_symbols` builds from the symbol `sym` of a table
with header `shdr`: the name found in the string table `shdr.sh_link`
and the value less the load address. -/
def symbol_entry (elf : Elf) (load_address : Nat) (shdr : GElf_Shdr) (sym : GElf_Sym) :
    dso_symbol :=
  ⟨(elf.strptr shdr.sh_link sym.st_name).getD [], vaddr_sub sym.st_value load_address⟩

/-- The test `GELF_ST_TYPE(sym.st_info) == STT_FUNC`. -/
def is_func (sym : GElf_Sym) : Bool :=
  GELF_ST_TYPE sym.st_info == STT_FUNC

/-- The function-typed symbols among the first `sh_size / sh_entsize`
entries of the symbol table with header `shdr` and data `d`. -/
def symtab_funcs (shdr : GElf_Shdr) (d : Elf_Data) : List GElf_Sym :=
  (d.syms.take (shdr.sh_size / shdr.sh_entsize)).filter is_func

/-! ## Example images -/

/-- Two zero-offset loadable segments with different virtual addresses. -/
def elf_two_loads : Elf :=
  { ei_class := .ELFCLASS64, ei_data := .ELFDATA2LSB, e_shstrndx := 0,
    phdrs := [⟨PT_LOAD, 0, 0x1000⟩, ⟨PT_LOAD, 0, 0x2000⟩],
    scns := [], strptr := fun _ _ => none }

/-- A string table with the names `main` (offset 1), `data` (offset 6)
and `low` (offset 11). -/
def strtab_example (off : Nat) : Option (List Nat) :=
  if off = 1 then some (cstr "main")
  else if off = 6 then some (cstr "data")
  else if off = 11 then some (cstr "low")
  else none

/-- A symbol table of three 24-byte entries: the function `main` at
0x401000, the object `data` at 0x601000 and the function `low` at 0x1000;
its string table is section 2. -/
def symtab_example : Elf_Scn :=
  { shdr := ⟨1, SHT_SYMTAB, 0, 2, 72, 24⟩,
    data := some ⟨[], [⟨1, 0x12, 0x401000⟩, ⟨6, 0x11, 0x601000⟩, ⟨11, 0x12, 0x1000⟩]⟩ }

/-- A string-table section (type `SHT_STRTAB`), contents not inspected. -/
def strtab_scn : Elf_Scn :=
  { shdr := ⟨9, 3, 0, 0, 16, 0⟩, data := some ⟨[], []⟩ }

/-- An image loaded at 0x400000 with one symbol table. -/
def elf_one_symtab : Elf :=
  { ei_class := .ELFCLASS64, ei_data := .ELFDATA2LSB, e_shstrndx := 2,
    phdrs := [⟨6, 64, 0x400040⟩, ⟨PT_LOAD, 0, 0x400000⟩, ⟨PT_LOAD, 0x1000, 0x601000⟩],
    scns := [symtab_example, strtab_scn],
    strptr := fun ndx off => if ndx = 2 then strtab_example off else none }

/-- The same sections in an image none of whose `PT_LOAD` segments has
file offset 0. -/
def elf_no_load : Elf :=
  { elf_one_symtab with
    phdrs := [⟨6, 0, 0x400040⟩, ⟨PT_LOAD, 0x1000, 0x601000⟩] }

/-- The list that the specification asks of `dso_symbols`: the
function-typed entries of the sections of type `SHT_SYMTAB`, in section
order and entry order, each as name and bias-corrected address. -/
def spec_symbols (elf : Elf) : List dso_symbol :=
  ((elf.scns.filter (fun scn => scn.shdr.sh_type == SHT_SYMTAB)).map
    (fun scn => match scn.data with
      | none => []
      | some d => (symtab_funcs scn.shdr d).map
          (symbol_entry elf (find_load_address elf) scn.shdr))).flatten

/-- A second symbol table, of one entry: the function `low` at 0x402000. -/
def symtab_second : Elf_Scn :=
  { shdr := ⟨1, SHT_SYMTAB, 0, 2, 24, 24⟩,
    data := some ⟨[], [⟨11, 0x12, 0x402000⟩]⟩ }

/-- A symbol table of one entry: the function `main` at 0x401000. -/
def symtab_first : Elf_Scn :=
  { shdr := ⟨1, SHT_SYMTAB, 0, 2, 24, 24⟩,
    data := some ⟨[], [⟨1, 0x12, 0x401000⟩]⟩ }

/-- An image loaded at 0x400000 with two symbol tables of one function
each. -/
def elf_two_symtabs : Elf :=
  { elf_one_symtab with scns := [symtab_first, strtab_scn, symtab_second] }

/-- A symbol table of two entries: the functions `main` at 0x401000 and
`low` at 0x402000. -/
def symtab_pair : Elf_Scn :=
  { shdr := ⟨1, SHT_SYMTAB, 0, 2, 48, 24⟩,
    data := some ⟨[], [⟨1, 0x12, 0x401000⟩, ⟨11, 0x12, 0x402000⟩]⟩ }

/-- An image loaded at 0x400000 whose first symbol table holds two
functions and whose second holds one. -/
def elf_break : Elf :=
  { elf_one_symtab with scns := [symtab_pair, strtab_scn, symtab_second] }

/-- An allocator whose second call of `realloc` fails and whose other
calls succeed. -/
def alloc_second_fails (k : Nat) : Bool := k != 1

/-! ## Example note sections -/

/-- The `width` low bytes of `v`, least significant first. -/
def le_encode : Nat → Nat → List Nat
  | 0, _ => []
  | width + 1, v => v % 256 :: le_encode width (v / 256)

/-- The `width`-byte representation of `v` in byte order `order`. -/
def encode (order : ElfData) (width v : Nat) : List Nat :=
  match order with
  | .ELFDATA2LSB => le_encode width v
  | .ELFDATA2MSB => (le_encode width v).reverse

/-- Zero padding of a byte sequence to a multiple of 4 bytes. -/
def pad4 (bs : List Nat) : List Nat :=
  bs ++ List.replicate ((4 - bs.length % 4) % 4) 0

/-- The memory image of one note record on a machine of byte order
`host`: header, padded name, padded descriptor. -/
def note_record (host : ElfData) (type : Nat) (name desc : List Nat) : List Nat :=
  encode host 4 name.length ++ encode host 4 desc.length ++ encode host 4 type
    ++ pad4 name ++ pad4 desc

/-- A stapsdt descriptor: three addresses of `w` bytes in byte order
`order`, then the provider, probe-name and argument strings. -/
def sdt_desc (order : ElfData) (w pc base sem : Nat) (provider name args : List Nat) :
    List Nat :=
  encode order w pc ++ encode order w base ++ encode order w sem
    ++ provider ++ [0] ++ name ++ [0] ++ args ++ [0]

/-- The header of a section `.note.stapsdt`: type `SHT_NOTE`, no flags. -/
def note_shdr (size : Nat) : GElf_Shdr := ⟨1, SHT_NOTE, 0, 0, size, 0⟩

/-- Section names of the example images: `.note.stapsdt` at offset 1 and
`.shstrtab` at offset 15 of section 2. -/
def shstrtab_example (ndx off : Nat) : Option (List Nat) :=
  if ndx = 2 ∧ off = 1 then some (cstr ".note.stapsdt")
  else if ndx = 2 ∧ off = 15 then some (cstr ".shstrtab")
  else none

/-- The section-name string table of the example images, section 2. -/
def shstrtab_scn : Elf_Scn :=
  { shdr := ⟨15, 3, 0, 0, 25, 0⟩, data := some ⟨[], []⟩ }

/-- An image of class `c` and byte order `order` whose section
`.note.stapsdt` has the memory image `d_buf`. -/
def elf_notes (c : ElfClass) (order : ElfData) (d_buf : List Nat) : Elf :=
  { ei_class := c, ei_data := order, e_shstrndx := 2,
    phdrs := [⟨PT_LOAD, 0, 0x400000⟩],
    scns := [⟨note_shdr d_buf.length, some ⟨d_buf, []⟩⟩, shstrtab_scn],
    strptr := shstrtab_example }

/-- Two records: `stapsdt` with provider `test` and probe `probe1` at
0x401136, then `other` with probe `probe2` at 0x401200. -/
def notes_marker_example : List Nat :=
  note_record .ELFDATA2LSB 3 (cstr "stapsdt" ++ [0])
      (sdt_desc .ELFDATA2LSB 8 0x401136 0x402004 0 (cstr "test") (cstr "probe1") [])
    ++ note_record .ELFDATA2LSB 3 (cstr "other" ++ [0])
      (sdt_desc .ELFDATA2LSB 8 0x401200 0x402004 0 (cstr "test") (cstr "probe2") [])

/-- A 32-bit little-endian stapsdt descriptor with probe address `pc` and
base address `base`, provider `test`, probe `probe1`. -/
def desc32 (pc base : Nat) : List Nat :=
  sdt_desc .ELFDATA2LSB 4 pc base 0 (cstr "test") (cstr "probe1") []

/-- A 32-bit little-endian image, no inspection of its sections needed. -/
def elf32 : Elf := elf_notes .ELFCLASS32 .ELFDATA2LSB []

/-- A 32-bit image whose one stapsdt record has probe address 0 and base
address 0x0804a004. -/
def elf32_zero_pc : Elf :=
  elf_notes .ELFCLASS32 .ELFDATA2LSB
    (note_record .ELFDATA2LSB 3 (cstr "stapsdt" ++ [0]) (desc32 0 0x0804a004))

/-- Two stapsdt records of a 64-bit image: the first has a descriptor of
8 bytes, shorter than the three-address block of 24 bytes; the second is
well formed. -/
def notes_short_desc : List Nat :=
  note_record .ELFDATA2LSB 3 (cstr "stapsdt" ++ [0]) (encode .ELFDATA2LSB 8 0x401136)
    ++ note_record .ELFDATA2LSB 3 (cstr "stapsdt" ++ [0])
      (sdt_desc .ELFDATA2LSB 8 0x401200 0x402004 0 (cstr "test") (cstr "probe2") [])

/-- One stapsdt record of a 64-bit image whose descriptor of 35 bytes
ends with the probe name `probe1` without a terminator; the byte after
the descriptor is the padding of the record. -/
def notes_unterminated : List Nat :=
  note_record .ELFDATA2LSB 3 (cstr "stapsdt" ++ [0])
    (encode .ELFDATA2LSB 8 0x401136 ++ encode .ELFDATA2LSB 8 0x402004
      ++ encode .ELFDATA2LSB 8 0 ++ cstr "test" ++ [0] ++ cstr "probe1")

/-! ## Example images of the second group of statements -/

/-- A symbol table of three function entries, `main`, a symbol whose
name offset 99 lies outside the string table, and `low`. -/
def symtab_bad_name : Elf_Scn :=
  { shdr := ⟨1, SHT_SYMTAB, 0, 2, 72, 24⟩,
    data := some ⟨[], [⟨1, 0x12, 0x401000⟩, ⟨99, 0x12, 0x401800⟩, ⟨11, 0x12, 0x402000⟩]⟩ }

/-- An image loaded at 0x400000 whose symbol table holds a function
symbol with an unreadable name between two readable ones. -/
def elf_bad_name : Elf :=
  { elf_one_symtab with scns := [symtab_bad_name, strtab_scn] }

/-- A symbol table header of type `SHT_SYMTAB` with `sh_entsize` 0. -/
def shdr_zero_entsize : GElf_Shdr := ⟨1, SHT_SYMTAB, 0, 2, 72, 0⟩

/-- An image loaded at 0x400000 whose symbol table has `sh_entsize` 0. -/
def elf_zero_entsize : Elf :=
  { elf_one_symtab with
    scns := [{ symtab_example with shdr := shdr_zero_entsize }, strtab_scn] }

/-- A string table as `strtab_example` whose offset 0 holds the empty
string, as the first byte of every ELF string table does. -/
def strtab_with_empty (off : Nat) : Option (List Nat) :=
  if off = 0 then some [] else strtab_example off

/-- A symbol table of two function entries: one with name offset 0, the
empty string, at 0x401000, and `low` at 0x402000. -/
def symtab_empty_name : Elf_Scn :=
  { shdr := ⟨1, SHT_SYMTAB, 0, 2, 48, 24⟩,
    data := some ⟨[], [⟨0, 0x12, 0x401000⟩, ⟨11, 0x12, 0x402000⟩]⟩ }

/-- An image loaded at 0x400000 with a function symbol of empty name. -/
def elf_empty_name : Elf :=
  { elf_one_symtab with
    scns := [symtab_empty_name, strtab_scn],
    strptr := fun ndx off => if ndx = 2 then strtab_with_empty off else none }

/-- One stapsdt record of a 64-bit image with provider `test` and an empty
probe-name string. -/
def notes_empty_probe : List Nat :=
  note_record .ELFDATA2LSB 3 (cstr "stapsdt" ++ [0])
    (sdt_desc .ELFDATA2LSB 8 0x401136 0x402004 0 (cstr "test") [] [])

/-- A position-independent image: its zero-offset `PT_LOAD` segment has
virtual address 0; the sections are those of `elf_one_symtab`. -/
def elf_pie : Elf :=
  { elf_one_symtab with
    phdrs := [⟨6, 64, 64⟩, ⟨PT_LOAD, 0, 0⟩, ⟨PT_LOAD, 0x1000, 0x201000⟩] }

/-- One well-formed stapsdt record whose note type is 4. -/
def notes_type4 : List Nat :=
  note_record .ELFDATA2LSB 4 (cstr "stapsdt" ++ [0])
    (sdt_desc .ELFDATA2LSB 8 0x401136 0x402004 0 (cstr "test") (cstr "probe1") [])

/-- The image `elf_notes` with an unreadable section-name string table
and a string lookup that returns `NULL` for every argument. -/
def elf_unreadable_shstrtab : Elf :=
  { elf_notes .ELFCLASS64 .ELFDATA2LSB notes_marker_example with
    scns := [⟨note_shdr notes_marker_example.length, some ⟨notes_marker_example, []⟩⟩,
             { shstrtab_scn with data := none }],
    strptr := fun _ _ => none }

/-- Section names as `shstrtab_example`, with `.text` at offset 25. -/
def shstrtab_text (ndx off : Nat) : Option (List Nat) :=
  if ndx = 2 ∧ off = 25 then some (cstr ".text") else shstrtab_example ndx off

/-- An image whose sections are `.text` and `.shstrtab`. -/
def elf_without_notes : Elf :=
  { elf_notes .ELFCLASS64 .ELFDATA2LSB [] with
    scns := [⟨⟨25, 1, 6, 0, 0, 0⟩, some ⟨[], []⟩⟩, shstrtab_scn],
    strptr := shstrtab_text }

/-- The section `.note.stapsdt` of `notes_marker_example` with the flag
`SHF_ALLOC` set. -/
def note_scn_alloc : Elf_Scn :=
  ⟨{ note_shdr notes_marker_example.length with sh_flags := SHF_ALLOC },
   some ⟨notes_marker_example, []⟩⟩

/-- An image whose section `.note.stapsdt` has the flag `SHF_ALLOC`. -/
def elf_alloc_note : Elf :=
  { elf_notes .ELFCLASS64 .ELFDATA2LSB notes_marker_example with
    scns := [note_scn_alloc, shstrtab_scn] }

/-- One stapsdt record of a 64-bit image, the whole content of the
section: provider `test`, probe `probe1` at 0x401136. -/
def notes_single_probe : List Nat :=
  note_record .ELFDATA2LSB 3 (cstr "stapsdt" ++ [0])
    (sdt_desc .ELFDATA2LSB 8 0x401136 0x402004 0 (cstr "test") (cstr "probe1") [])

/-- An image with a readable section-name string table whose first
section has the name offset 99, for which `elf_strptr` returns `NULL`;
its second section is `.shstrtab` and no section is named
`.note.stapsdt`. -/
def elf_bad_section_name : Elf :=
  { elf_notes .ELFCLASS64 .ELFDATA2LSB [] with
    scns := [⟨⟨99, 1, 6, 0, 0, 0⟩, some ⟨[], []⟩⟩, shstrtab_scn] }

/-! ## Theorems -/

set_option maxRecDepth 100000

theorem find_load_address_loop_take (phdrs : List GElf_Phdr) (n : Nat)
    (hn : n ≤ phdrs.length) :
    find_load_address_loop phdrs n
      = (((phdrs.take n).reverse.find? is_load_zero).map (·.p_vaddr)).getD 0 := by
  induction n with
  | zero => simp [find_load_address_loop]
  | succ k ih =>
    have hk : k < phdrs.length := hn
    have ht : phdrs.take (k + 1) = phdrs.take k ++ [phdrs[k]] := by
      rw [List.take_succ, List.getElem?_eq_getElem hk]; rfl
    rw [find_load_address_loop, List.getElem?_eq_getElem hk, ht]
    simp only [List.reverse_append, List.reverse_cons, List.reverse_nil, List.nil_append,
      List.singleton_append, List.find?_cons]
    have hz : is_load_zero phdrs[k]
        = !(phdrs[k].p_type != PT_LOAD || phdrs[k].p_offset != 0) := rfl
    cases hc : (phdrs[k].p_type != PT_LOAD || phdrs[k].p_offset != 0)
    · simp [hz, hc]
    · simp [hz, hc, ih (Nat.le_of_lt hk)]

/-- C1 (as amended): for every program header table, the result of
`find_load_address` is the `p_vaddr` of the last entry in table order
(the first one met when the table is walked from its highest index down)
whose type is `PT_LOAD` and whose file offset is 0, and it is 0 when no
entry has type `PT_LOAD` and offset 0. -/
theorem find_load_address_last (elf : Elf) :
    find_load_address elf
      = ((elf.phdrs.reverse.find? is_load_zero).map (·.p_vaddr)).getD 0 := by
  unfold find_load_address
  rw [find_load_address_loop_take elf.phdrs elf.phdrs.length (Nat.le_refl _), List.take_length]

/-- C1 (as stated) fails: with two zero-offset `PT_LOAD` entries of
virtual addresses 0x1000 (index 0) and 0x2000 (index 1), the entry of
lowest index has address 0x1000 but `find_load_address` returns 0x2000. -/
theorem find_load_address_not_first :
    ((elf_two_loads.phdrs.find? is_load_zero).map (·.p_vaddr)).getD 0 = 0x1000
      ∧ find_load_address elf_two_loads = 0x2000
      ∧ find_load_address elf_two_loads
          ≠ ((elf_two_loads.phdrs.find? is_load_zero).map (·.p_vaddr)).getD 0 := by
  decide

/-! ### The symbol list -/

theorem set_length_append_singleton {α : Type} (l : List α) (x e : α) :
    (l ++ [x]).set l.length e = l ++ [e] := by
  induction l with
  | nil => rfl
  | cons a t ih => simp [ih]

theorem store_realloc (symbols : Option (List dso_symbol)) (c : Nat)
    (h : c ≤ (symbols.getD []).length) (e : dso_symbol) :
    store_symbol (realloc_array symbols (c + 1)) (c + 1) e
      = (symbols.getD []).take c ++ [e] := by
  unfold store_symbol realloc_array
  simp only [Nat.add_sub_cancel]
  have hc : ((symbols.getD []).take c).length = c := by
    rw [List.length_take]; omega
  rcases Nat.lt_or_ge c (symbols.getD []).length with hlt | hge
  · have hlen : ((symbols.getD []).take (c + 1)).length = c + 1 := by
      rw [List.length_take]; omega
    rw [hlen, Nat.sub_self, List.replicate_zero, List.append_nil, List.take_succ,
      List.getElem?_eq_getElem hlt]
    simp only [Option.toList_some]
    have h2 := set_length_append_singleton ((symbols.getD []).take c) (symbols.getD [])[c] e
    rw [hc] at h2
    exact h2
  · have heq : (symbols.getD []).length = c := Nat.le_antisymm hge h
    have ht : (symbols.getD []).take (c + 1) = symbols.getD [] :=
      List.take_of_length_le (by omega)
    have ht2 : (symbols.getD []).take c = symbols.getD [] :=
      List.take_of_length_le (by omega)
    rw [ht, ht2, heq]
    simp only [Nat.add_sub_cancel_left, List.replicate_one]
    have h2 := set_length_append_singleton (symbols.getD []) default e
    rw [heq] at h2
    exact h2

theorem realloc_symbols_ok (symbols : Option (List dso_symbol)) (c : Nat) :
    (realloc_symbols true symbols c).1 = some (realloc_array symbols c) := by
  simp [realloc_symbols]

theorem realloc_symbols_fail (symbols : Option (List dso_symbol)) (c : Nat) :
    (realloc_symbols false symbols c).1 = none := by
  cases symbols <;> simp [realloc_symbols]

/-! ### `dso_symbols` -/

theorem dso_symbols_for_ok (elf : Elf) (B : Nat) (shdr : GElf_Shdr) (d : Elf_Data) :
    ∀ (n i : Nat) (st : SymState),
      st.elf_data = some d → i + n ≤ d.syms.length → i + n ≤ INT_MAX →
      st.symbols_count ≤ (st.symbols.getD []).length →
      (∀ sym ∈ (d.syms.drop i).take n, is_func sym = true →
        (elf.strptr shdr.sh_link sym.st_name).isSome = true) →
      ∃ st1, dso_symbols_for (fun _ => true) elf B shdr n i st = some st1
        ∧ st1.elf_data = some d
        ∧ st1.symbols_count ≤ (st1.symbols.getD []).length
        ∧ st1.symbols_count = st.symbols_count
            + ((((d.syms.drop i).take n).filter is_func).map (symbol_entry elf B shdr)).length
        ∧ st1.symbols
            = (if (((d.syms.drop i).take n).filter is_func).map (symbol_entry elf B shdr) = []
               then st.symbols
               else some ((st.symbols.getD []).take st.symbols_count
                 ++ (((d.syms.drop i).take n).filter is_func).map (symbol_entry elf B shdr))) := by
  intro n
  induction n with
  | zero =>
    intro i st hd _ _ hinv _
    exact ⟨st, rfl, hd, hinv, by simp, by simp⟩
  | succ k ih =>
    intro i st hd hlen hmax hinv hnames
    have hi : i < d.syms.length := by omega
    have hdrop : (d.syms.drop i).take (k + 1) = d.syms[i] :: (d.syms.drop (i + 1)).take k := by
      rw [List.drop_eq_getElem_cons hi, List.take_succ_cons]
    have hsym : gelf_getsym st.elf_data i st.sym = d.syms[i] := by
      simp [gelf_getsym, hd, List.getElem?_eq_getElem hi]
    have hnames1 : ∀ sym ∈ (d.syms.drop (i + 1)).take k, is_func sym = true →
        (elf.strptr shdr.sh_link sym.st_name).isSome = true := by
      intro sym hm
      exact hnames sym (by rw [hdrop]; exact List.mem_cons_of_mem _ hm)
    have hiM : ¬ (i ≥ INT_MAX) := by omega
    rw [hdrop]
    cases hf : is_func d.syms[i]
    · -- not a function: the entry is passed over
      have hne : (GELF_ST_TYPE d.syms[i].st_info != STT_FUNC) = true := by
        simpa [is_func, bne] using hf
      obtain ⟨st1, h1, h2, h3, h4, h5⟩ := ih (i + 1) { st with sym := d.syms[i] } hd
        (by omega) (by omega) hinv hnames1
      refine ⟨st1, ?_, h2, h3, ?_, ?_⟩
      · rw [dso_symbols_for]
        simp only [dso_symbols_body, hsym, hne, if_true, hiM, if_false]
        exact h1
      · simpa [List.filter_cons, hf] using h4
      · simpa [List.filter_cons, hf] using h5
    · -- a function: one entry is appended
      have hne : (GELF_ST_TYPE d.syms[i].st_info != STT_FUNC) = false := by
        simpa [is_func, bne] using hf
      have hsome := hnames d.syms[i] (by rw [hdrop]; exact List.mem_cons_self _ _) hf
      obtain ⟨name, hname⟩ := Option.isSome_iff_exists.mp hsome
      have hentry : symbol_entry elf B shdr d.syms[i]
          = ⟨name, vaddr_sub d.syms[i].st_value B⟩ := by
        simp [symbol_entry, hname]
      have hstore := store_realloc st.symbols st.symbols_count hinv
        (symbol_entry elf B shdr d.syms[i])
      obtain ⟨st1, h1, h2, h3, h4, h5⟩ := ih (i + 1)
        { st with sym := d.syms[i],
                  symbols := some ((st.symbols.getD []).take st.symbols_count
                    ++ [symbol_entry elf B shdr d.syms[i]]),
                  symbols_count := st.symbols_count + 1,
                  calls := st.calls + 1 } hd
        (by omega) (by omega)
        (by simp only [Option.getD_some, List.length_append, List.length_take,
              List.length_singleton]; omega)
        hnames1
      refine ⟨st1, ?_, h2, h3, ?_, ?_⟩
      · rw [dso_symbols_for]
        simp only [dso_symbols_body, hsym, hne, realloc_symbols_ok, hname,
          Bool.false_eq_true, if_false, hiM]
        rw [← hentry, hstore]
        exact h1
      · simp only [List.filter_cons, hf, if_true, List.map_cons, List.length_cons]
        simp only at h4
        omega
      · simp only [List.filter_cons, hf, if_true, List.map_cons]
        simp only [Option.getD_some] at h5
        have htk : List.take (st.symbols_count + 1)
            ((st.symbols.getD []).take st.symbols_count
              ++ [symbol_entry elf B shdr d.syms[i]])
            = (st.symbols.getD []).take st.symbols_count
              ++ [symbol_entry elf B shdr d.syms[i]] := by
          apply List.take_of_length_le
          simp only [List.length_append, List.length_take, List.length_singleton]
          omega
        rw [h5, htk]
        split <;> simp_all

theorem dso_symbols_scns_skip (alloc : Nat → Bool) (elf : Elf) (B : Nat) :
    ∀ (l : List Elf_Scn) (st : SymState),
      (∀ s ∈ l, s.shdr.sh_type ≠ SHT_SYMTAB) →
      dso_symbols_scns alloc elf B l st = some st := by
  intro l
  induction l with
  | nil => intro st _; rfl
  | cons s t ih =>
    intro st h
    have hs : (s.shdr.sh_type != SHT_SYMTAB) = true := by
      simpa [bne] using h s (List.mem_cons_self _ _)
    rw [dso_symbols_scns]
    simp only [hs, if_true]
    exact ih st (fun x hx => h x (List.mem_cons_of_mem _ hx))

theorem vaddr_sub_int (a b : Nat) :
    ((vaddr_sub a b : Nat) : Int) = ((a : Int) - (b : Int)) % 2 ^ 64 := by
  unfold vaddr_sub sizeof_vaddr
  have hb : b % 2 ^ (8 * 8) < 2 ^ (8 * 8) := Nat.mod_lt _ (by norm_num)
  have ha : a % 2 ^ (8 * 8) < 2 ^ (8 * 8) := Nat.mod_lt _ (by norm_num)
  norm_num at ha hb ⊢
  omega

theorem vaddr_sub_add (B k : Nat) (h : B + k < 2 ^ 64) : vaddr_sub (B + k) B = k := by
  unfold vaddr_sub sizeof_vaddr
  norm_num
  omega

theorem vaddr_sub_wrap (v B : Nat) (hv : v < B) (hB : B < 2 ^ 64) :
    vaddr_sub v B = 2 ^ 64 + v - B := by
  unfold vaddr_sub sizeof_vaddr
  norm_num
  omega

theorem find_load_address_eq_zero (elf : Elf)
    (h : ∀ header ∈ elf.phdrs, ¬ (header.p_type = PT_LOAD ∧ header.p_offset = 0)) :
    find_load_address elf = 0 := by
  unfold find_load_address
  rw [find_load_address_loop_take elf.phdrs elf.phdrs.length (Nat.le_refl _), List.take_length]
  have hnone : elf.phdrs.reverse.find? is_load_zero = none := by
    rw [List.find?_eq_none]
    intro x hx
    have hx2 := h x (List.mem_reverse.mp hx)
    simp only [is_load_zero, bne, Bool.not_or, Bool.not_not, Bool.and_eq_true, beq_iff_eq]
    exact hx2
  rw [hnone]
  rfl

/-- C3: for every image that has no program header of type `PT_LOAD` with
file offset 0, `dso_symbols` returns count 0 and leaves the list of the
caller as it was, whatever the sections and symbol tables contain and
whatever the allocator would do. -/
theorem dso_symbols_no_load_segment (alloc : Nat → Bool)
    (symbols : Option (List dso_symbol)) (elf : Elf) (sym0 : GElf_Sym)
    (h : ∀ header ∈ elf.phdrs, ¬ (header.p_type = PT_LOAD ∧ header.p_offset = 0)) :
    dso_symbols alloc symbols elf sym0 = some (0, symbols) := by
  unfold dso_symbols
  simp [find_load_address_eq_zero elf h]

theorem dso_symbols_no_load_segment_witness :
    dso_symbols (fun _ => true) (some [⟨cstr "kept", 7⟩]) elf_no_load ⟨0, 0, 0⟩
      = some (0, some [⟨cstr "kept", 7⟩]) :=
  dso_symbols_no_load_segment (fun _ => true) (some [⟨cstr "kept", 7⟩]) elf_no_load ⟨0, 0, 0⟩
    (by decide)

/-- Bias correction where the scan reads the table: for an image whose
load bias `B` is non-zero and whose one symbol table is readable
(non-zero entry size, entry count within the table and within `int`,
every function name found), when every list growth succeeds
`dso_symbols` returns the function-typed entries of the table, each
stored with address `(v - B) mod 2^64` for its value `v`; a function
symbol at `B + k` gets address `k`, and one with `v < B` gets the wrapped
value `2^64 + v - B`.  Images with a second symbol table are outside this
statement. -/
theorem dso_symbols_bias_corrected (elf : Elf) (symbols : Option (List dso_symbol))
    (sym0 : GElf_Sym) (pre post : List Elf_Scn) (scn : Elf_Scn) (d : Elf_Data)
    (hB : find_load_address elf ≠ 0)
    (hscns : elf.scns = pre ++ scn :: post)
    (hpre : ∀ s ∈ pre, s.shdr.sh_type ≠ SHT_SYMTAB)
    (hpost : ∀ s ∈ post, s.shdr.sh_type ≠ SHT_SYMTAB)
    (htype : scn.shdr.sh_type = SHT_SYMTAB)
    (hdata : scn.data = some d)
    (hent : scn.shdr.sh_entsize ≠ 0)
    (hcount : scn.shdr.sh_size / scn.shdr.sh_entsize ≤ d.syms.length)
    (hmax : scn.shdr.sh_size / scn.shdr.sh_entsize ≤ INT_MAX)
    (hnames : ∀ sym ∈ symtab_funcs scn.shdr d,
      (elf.strptr scn.shdr.sh_link sym.st_name).isSome = true) :
    dso_symbols (fun _ => true) symbols elf sym0
        = some (((symtab_funcs scn.shdr d).map
                  (symbol_entry elf (find_load_address elf) scn.shdr)).length,
                if (symtab_funcs scn.shdr d).map
                    (symbol_entry elf (find_load_address elf) scn.shdr) = []
                then symbols
                else some ((symtab_funcs scn.shdr d).map
                  (symbol_entry elf (find_load_address elf) scn.shdr)))
      ∧ (∀ sym : GElf_Sym,
          ((symbol_entry elf (find_load_address elf) scn.shdr sym).addr : Int)
            = ((sym.st_value : Int) - (find_load_address elf : Int)) % 2 ^ 64)
      ∧ (∀ (sym : GElf_Sym) (k : Nat), sym.st_value = find_load_address elf + k →
          find_load_address elf + k < 2 ^ 64 →
          (symbol_entry elf (find_load_address elf) scn.shdr sym).addr = k)
      ∧ (∀ sym : GElf_Sym, sym.st_value < find_load_address elf →
          find_load_address elf < 2 ^ 64 →
          (symbol_entry elf (find_load_address elf) scn.shdr sym).addr
            = 2 ^ 64 + sym.st_value - find_load_address elf) := by
  refine ⟨?_, fun sym => vaddr_sub_int _ _, ?_, ?_⟩
  · have hsym : (scn.shdr.sh_type != SHT_SYMTAB) = false := by simp [bne, htype]
    have hnames2 : ∀ sym ∈ (d.syms.drop 0).take (scn.shdr.sh_size / scn.shdr.sh_entsize),
        is_func sym = true → (elf.strptr scn.shdr.sh_link sym.st_name).isSome = true := by
      intro sym hm hf
      exact hnames sym (by
        unfold symtab_funcs
        exact List.mem_filter.mpr ⟨by simpa using hm, hf⟩)
    obtain ⟨st1, h1, _, _, h4, h5⟩ := dso_symbols_for_ok elf (find_load_address elf) scn.shdr d
      (scn.shdr.sh_size / scn.shdr.sh_entsize) 0
      ⟨some d, sym0, symbols, 0, 0⟩ rfl (by omega) (by omega) (Nat.zero_le _) hnames2
    have hrun : dso_symbols_scns (fun _ => true) elf (find_load_address elf) elf.scns
        ⟨none, sym0, symbols, 0, 0⟩ = some st1 := by
      rw [hscns]
      have happ : ∀ (l : List Elf_Scn) (st : SymState),
          (∀ s ∈ l, s.shdr.sh_type ≠ SHT_SYMTAB) →
          dso_symbols_scns (fun _ => true) elf (find_load_address elf) (l ++ scn :: post) st
            = dso_symbols_scns (fun _ => true) elf (find_load_address elf) (scn :: post) st := by
        intro l
        induction l with
        | nil => intro st _; rfl
        | cons s t ih =>
          intro st h
          have hs : (s.shdr.sh_type != SHT_SYMTAB) = true := by
            simpa [bne] using h s (List.mem_cons_self _ _)
          rw [List.cons_append, dso_symbols_scns]
          simp only [hs, if_true]
          exact ih st (fun x hx => h x (List.mem_cons_of_mem _ hx))
      rw [happ pre _ hpre, dso_symbols_scns]
      simp only [hsym, Bool.false_eq_true, if_false, elf_getdata, hdata, elf_symbols, hent, h1]
      exact dso_symbols_scns_skip _ elf _ post st1 hpost
    unfold dso_symbols
    simp only [hB, if_false, hrun]
    simp only [List.drop_zero, Nat.zero_add, Option.getD, List.take_zero, List.nil_append] at h4 h5
    unfold symtab_funcs
    rw [h4, h5]
  · intro sym k hk hlt
    simp only [symbol_entry, hk]
    exact vaddr_sub_add _ _ hlt
  · intro sym hv hlt
    simp only [symbol_entry]
    exact vaddr_sub_wrap _ _ hv hlt

theorem dso_symbols_bias_corrected_witness :
    dso_symbols (fun _ => true) none elf_one_symtab ⟨0, 0, 0⟩
      = some (2, some [⟨cstr "main", 0x1000⟩, ⟨cstr "low", 0xFFFFFFFFFFC01000⟩]) :=
  (dso_symbols_bias_corrected elf_one_symtab none ⟨0, 0, 0⟩ [] [strtab_scn] symtab_example
    ⟨[], [⟨1, 0x12, 0x401000⟩, ⟨6, 0x11, 0x601000⟩, ⟨11, 0x12, 0x1000⟩]⟩
    (by decide) rfl (by decide) (by decide) rfl rfl (by decide) (by decide) (by decide)
    (by decide)).1.trans (by decide)

/-- C4 (failing input): in an image with two sections of type
`SHT_SYMTAB`, the first holding the function `main` and the second the
function `low`, the list asked by the specification is `main`, `low`;
`dso_symbols` hands the data descriptor of the first section to
`elf_getdata` for the second, gets `NULL`, and appends `main` a second
time where the entry `low` was due. -/
theorem dso_symbols_second_symtab_unread :
    find_load_address elf_two_symtabs = 0x400000
      ∧ spec_symbols elf_two_symtabs
          = [⟨cstr "main", 0x1000⟩, ⟨cstr "low", 0x2000⟩]
      ∧ dso_symbols (fun _ => true) none elf_two_symtabs ⟨0, 0, 0⟩
          = some (2, some [⟨cstr "main", 0x1000⟩, ⟨cstr "main", 0x1000⟩]) := by
  decide

/-- C5 (failing input): the second call of `realloc` fails, after one
successful append, while `dso_symbols` scans the first of two symbol
tables; the `break` leaves the inner loop only, the scan goes on with the
second table, and the call returns count 1 with a one-entry list instead
of count 0 with a null list. -/
theorem dso_symbols_growth_failure_not_final :
    find_load_address elf_break = 0x400000
      ∧ dso_symbols alloc_second_fails none elf_break ⟨0, 0, 0⟩
          = some (1, some [⟨cstr "low", 0x2000⟩]) := by
  decide

/-! ### The SDT note scanner: failing inputs -/

/-- C6 (failing input): in a container of class `ELFCLASS32` the block
translated by `gelf_xlatetom` holds three 4-byte addresses and
`sdt_note_addr` copies `sizeof(vaddr)` = 8 bytes of it: with first field
0x08049136 the result is 0x08049136 when the base field is 0 and
0x0804a00408049136 when the base field is 0x0804a004 (little-endian
machine; on a big-endian machine the result is 0x080491360804a004). -/
theorem sdt_note_addr_class32_reads_base :
    load .ELFDATA2LSB (desc32 0x08049136 0x0804a004) 0 4 = 0x08049136
      ∧ sdt_note_addr elf32 .ELFDATA2LSB (desc32 0x08049136 0) 0
          (desc32 0x08049136 0).length 3 = some 0x08049136
      ∧ sdt_note_addr elf32 .ELFDATA2LSB (desc32 0x08049136 0x0804a004) 0
          (desc32 0x08049136 0x0804a004).length 3 = some 0x0804a00408049136
      ∧ sdt_note_addr elf32 .ELFDATA2MSB (desc32 0x08049136 0x0804a004) 0
          (desc32 0x08049136 0x0804a004).length 3 = some 0x080491360804a004 := by
  decide

/-- C7 (failing input): a well-formed stapsdt record of a 32-bit
container whose first address field is 0 and whose base field is
0x0804a004 is not rejected: `sdt_note_addr` returns the non-zero value
0x0804a00400000000 and `dso_sdt_notes` appends an entry for the record. -/
theorem dso_sdt_notes_class32_zero_address_kept :
    load .ELFDATA2LSB (desc32 0 0x0804a004) 0 4 = 0
      ∧ dso_sdt_notes (fun _ => true) none elf32_zero_pc .ELFDATA2LSB ⟨0, 0, 0, 0, 0, 0⟩
          = some (1, some [⟨cstr "probe1", 0x0804a00400000000⟩]) := by
  decide

/-- C10 (failing inputs): for a stapsdt record whose descriptor has 8
bytes (indices 20 to 27 of the data) the search length of `sdt_note_name`
underflows to `2^64 - 16` and `memchr`, started at index 44, stops at
the zero byte of index 47, in the name of the next record, so that the
function returns a pointer to index 48; and a record whose probe name
has no terminator inside the descriptor is not skipped. -/
theorem sdt_note_name_reads_outside_descriptor :
    gelf_getnote .ELFDATA2LSB (some ⟨notes_short_desc, []⟩) 0
        = some ⟨28, ⟨8, 8, 3⟩, 12, 20⟩
      ∧ sdt_note_name_len (elf_notes .ELFCLASS64 .ELFDATA2LSB notes_short_desc) ⟨8, 8, 3⟩ 20
          = 2 ^ 64 - 16
      ∧ sdt_note_name (elf_notes .ELFCLASS64 .ELFDATA2LSB notes_short_desc) ⟨8, 8, 3⟩
          notes_short_desc 20 = some (some 48)
      ∧ gelf_getnote .ELFDATA2LSB (some ⟨notes_unterminated, []⟩) 0
          = some ⟨56, ⟨8, 35, 3⟩, 12, 20⟩
      ∧ dso_sdt_notes (fun _ => true) none
          (elf_notes .ELFCLASS64 .ELFDATA2LSB notes_unterminated) .ELFDATA2LSB
          ⟨0, 0, 0, 0, 0, 0⟩ = some (1, some [⟨cstr "probe1", 0x401136⟩]) := by
  decide

/-! ### The SDT note scanner: enumeration of the records -/

theorem memchr_zero_found (P rest : List Nat) (hP : ∀ b ∈ P, b ≠ 0) :
    ∀ (p n : Nat), P.length < n →
      memchr_zero (P ++ 0 :: rest) p n = some (some (p + P.length)) := by
  induction P with
  | nil =>
    intro p n hn
    have hn0 : n ≠ 0 := by simp at hn; omega
    simp [memchr_zero, hn0]
  | cons a t ih =>
    intro p n hn
    have hn0 : n ≠ 0 := by simp at hn; omega
    have ha : a ≠ 0 := hP a (List.mem_cons_self _ _)
    rw [List.cons_append, memchr_zero]
    simp only [hn0, if_false, ha]
    rw [ih (fun b hb => hP b (List.mem_cons_of_mem _ hb)) (p + 1) (n - 1)
      (by simp at hn; omega)]
    simp only [List.length_cons]
    congr 2
    omega

theorem memchr_zero_absent (P : List Nat) (hP : ∀ b ∈ P, b ≠ 0) (rest : List Nat) :
    ∀ (p : Nat), memchr_zero (P ++ rest) p P.length = some none := by
  induction P with
  | nil => intro p; cases rest <;> simp [memchr_zero]
  | cons a t ih =>
    intro p
    have ha : a ≠ 0 := hP a (List.mem_cons_self _ _)
    rw [List.cons_append, memchr_zero]
    simp only [List.length_cons, Nat.add_one_ne_zero, if_false, ha, Nat.add_sub_cancel]
    exact ih (fun b hb => hP b (List.mem_cons_of_mem _ hb)) (p + 1)

theorem c_string_found (N rest : List Nat) (hN : ∀ b ∈ N, b ≠ 0) :
    c_string (N ++ 0 :: rest) = some N := by
  induction N with
  | nil => simp [c_string]
  | cons a t ih =>
    have ha : a ≠ 0 := hN a (List.mem_cons_self _ _)
    rw [List.cons_append, c_string]
    simp only [ha, if_false]
    rw [ih (fun b hb => hN b (List.mem_cons_of_mem _ hb))]
    rfl

theorem le_decode_ne_zero (bs : List Nat) : le_decode bs ≠ 0 ↔ ∃ b ∈ bs, b ≠ 0 := by
  induction bs with
  | nil => simp [le_decode]
  | cons a t ih =>
    rw [le_decode]
    constructor
    · intro h
      by_cases ha : a = 0
      · have ht : le_decode t ≠ 0 := by
          intro h0
          apply h
          rw [ha, h0]
        obtain ⟨b, hb, hb0⟩ := ih.mp ht
        exact ⟨b, List.mem_cons_of_mem _ hb, hb0⟩
      · exact ⟨a, List.mem_cons_self _ _, ha⟩
    · rintro ⟨b, hb, hb0⟩
      rcases List.mem_cons.mp hb with rfl | hbt
      · omega
      · have := ih.mpr ⟨b, hbt, hb0⟩
        omega

theorem decode_ne_zero (order : ElfData) (bs : List Nat) :
    decode order bs ≠ 0 ↔ ∃ b ∈ bs, b ≠ 0 := by
  cases order
  · exact le_decode_ne_zero bs
  · unfold decode
    simp only
    rw [le_decode_ne_zero]
    constructor
    · rintro ⟨b, hb, hb0⟩
      exact ⟨b, List.mem_reverse.mp hb, hb0⟩
    · rintro ⟨b, hb, hb0⟩
      exact ⟨b, List.mem_reverse.mpr hb, hb0⟩

theorem xlate_take_mem (elf : Elf) (host : ElfData) (A0 A1 A2 : List Nat)
    (h0 : A0.length = addr_size elf.ei_class) (b : Nat) (hb : b ∈ A0) :
    b ∈ (gelf_xlatetom_addr elf host SDT_NOTE_COUNT (A0 ++ (A1 ++ A2))).take sizeof_vaddr := by
  have hw : addr_size elf.ei_class ≤ 8 := by
    cases elf.ei_class <;> simp [addr_size]
  unfold gelf_xlatetom_addr sizeof_vaddr SDT_NOTE_COUNT
  split
  · rw [List.take_append_eq_append_take]
    apply List.mem_append_left
    rw [List.take_of_length_le (by omega)]
    exact hb
  · rw [swap_objects, ← h0, List.take_left, List.take_append_eq_append_take]
    apply List.mem_append_left
    rw [List.take_of_length_le (by simp; omega)]
    exact List.mem_reverse.mpr hb

/-! ### The SDT note scanner: a well-formed record -/

theorem sdt_record_parts (elf : Elf) (host : ElfData) (d_buf : List Nat) (nhdr : GElf_Nhdr)
    (data : Nat) (pre A0 A1 A2 P N rest post : List Nat)
    (htype : nhdr.n_type = SDT_NOTE_TYPE)
    (hbuf : d_buf = pre ++ ((A0 ++ (A1 ++ A2)) ++ (P ++ 0 :: (N ++ 0 :: (rest ++ post)))))
    (hpre : pre.length = data)
    (hdesc : nhdr.n_descsz
      = 3 * addr_size elf.ei_class + P.length + 1 + N.length + 1 + rest.length)
    (h0 : A0.length = addr_size elf.ei_class) (h1 : A1.length = addr_size elf.ei_class)
    (h2 : A2.length = addr_size elf.ei_class)
    (hP : ∀ b ∈ P, b ≠ 0) (hN : ∀ b ∈ N, b ≠ 0)
    (hpc : decode elf.ei_data A0 ≠ 0) (hsz : nhdr.n_descsz < 2 ^ 32) :
    sdt_note_name elf nhdr d_buf data
        = some (some (data + 3 * addr_size elf.ei_class + P.length + 1))
      ∧ strdup_at d_buf (data + 3 * addr_size elf.ei_class + P.length + 1) = some N
      ∧ ∃ vaddr, vaddr ≠ 0
          ∧ sdt_note_addr elf host d_buf data nhdr.n_descsz nhdr.n_type
              = some (if 1 ≤ P.length + N.length + rest.length then vaddr else 0) := by
  have hA : (A0 ++ (A1 ++ A2)).length = 3 * addr_size elf.ei_class := by
    simp only [List.length_append, h0, h1, h2]; omega
  have hfs : gelf_fsize_addr elf SDT_NOTE_COUNT = 3 * addr_size elf.ei_class := rfl
  have hdrop1 : d_buf.drop data
      = (A0 ++ (A1 ++ A2)) ++ (P ++ 0 :: (N ++ 0 :: (rest ++ post))) := by
    rw [hbuf, ← hpre, List.drop_left]
  have hdrop2 : d_buf.drop (data + 3 * addr_size elf.ei_class)
      = P ++ 0 :: (N ++ 0 :: (rest ++ post)) := by
    rw [← List.drop_drop, hdrop1, ← hA, List.drop_left]
  have hdrop3 : d_buf.drop (data + 3 * addr_size elf.ei_class + P.length + 1)
      = N ++ 0 :: (rest ++ post) := by
    rw [Nat.add_assoc (data + 3 * addr_size elf.ei_class), ← List.drop_drop, hdrop2,
      ← List.drop_drop, List.drop_left]
    rfl
  have hlen : sdt_note_name_len elf nhdr data = P.length + 1 + N.length + 1 + rest.length := by
    unfold sdt_note_name_len
    rw [hfs, hdesc]
    rw [hdesc] at hsz
    norm_num at hsz ⊢
    omega
  refine ⟨?_, ?_, ?_⟩
  · unfold sdt_note_name
    simp only [hfs, hdrop2, hlen]
    rw [memchr_zero_found P _ hP _ _ (by omega)]
  · unfold strdup_at
    rw [hdrop3]
    exact c_string_found N _ hN
  · obtain ⟨b, hb, hb0⟩ := (decode_ne_zero elf.ei_data A0).mp hpc
    refine ⟨decode host ((gelf_xlatetom_addr elf host SDT_NOTE_COUNT
      (A0 ++ (A1 ++ A2))).take sizeof_vaddr), ?_, ?_⟩
    · exact (decode_ne_zero host _).mpr ⟨b, xlate_take_mem elf host A0 A1 A2 h0 b hb, hb0⟩
    · unfold sdt_note_addr
      have hty : (nhdr.n_type != SDT_NOTE_TYPE) = false := by simp [htype]
      have hbound : ¬ (d_buf.length < data + gelf_fsize_addr elf SDT_NOTE_COUNT) := by
        rw [hfs, hbuf, ← hpre, ← hA]
        simp only [List.length_append]
        omega
      have htake : (d_buf.drop data).take (gelf_fsize_addr elf SDT_NOTE_COUNT)
          = A0 ++ (A1 ++ A2) := by
        rw [hfs, hdrop1, ← hA, List.take_left]
      simp only [hty, Bool.false_eq_true, if_false, hbound, htake]
      by_cases hmin : 1 ≤ P.length + N.length + rest.length
      · have hl : ¬ (nhdr.n_descsz < gelf_fsize_addr elf SDT_NOTE_COUNT + SDT_NOTE_COUNT) := by
          rw [hfs, hdesc]; unfold SDT_NOTE_COUNT; omega
        simp only [hl, if_false, hmin, if_true]
      · have hl : nhdr.n_descsz < gelf_fsize_addr elf SDT_NOTE_COUNT + SDT_NOTE_COUNT := by
          rw [hfs, hdesc]; unfold SDT_NOTE_COUNT; omega
        simp only [hl, if_true, hmin, if_false]

theorem dso_sdt_notes_record_body (alloc : Nat → Bool) (elf : Elf) (host : ElfData)
    (d_buf : List Nat) (st : NoteState) (r : NoteRec)
    (pre A0 A1 A2 P N rest post : List Nat)
    (hname : note_name_ok d_buf r = true)
    (htype : r.nhdr.n_type = SDT_NOTE_TYPE)
    (hbuf : d_buf = pre ++ ((A0 ++ (A1 ++ A2)) ++ (P ++ 0 :: (N ++ 0 :: (rest ++ post)))))
    (hpre : pre.length = r.desc_off)
    (hdesc : r.nhdr.n_descsz
      = 3 * addr_size elf.ei_class + P.length + 1 + N.length + 1 + rest.length)
    (h0 : A0.length = addr_size elf.ei_class) (h1 : A1.length = addr_size elf.ei_class)
    (h2 : A2.length = addr_size elf.ei_class)
    (hP : ∀ b ∈ P, b ≠ 0) (hN : ∀ b ∈ N, b ≠ 0)
    (hpc : decode elf.ei_data A0 ≠ 0) (hsz : r.nhdr.n_descsz < 2 ^ 32)
    (hinv : st.symbols_count ≤ (st.symbols.getD []).length)
    (halloc : alloc st.calls = true) :
    ∃ vaddr, vaddr ≠ 0
      ∧ dso_sdt_notes_body alloc elf host d_buf r st
          = if 1 ≤ P.length + N.length + rest.length then
              some (false,
                ⟨some ((st.symbols.getD []).take st.symbols_count ++ [⟨N, vaddr⟩]),
                 st.symbols_count + 1, st.calls + 1⟩)
            else some (false, st) := by
  obtain ⟨hnm, hdup, vaddr, hv0, haddr⟩ := sdt_record_parts elf host d_buf r.nhdr r.desc_off
    pre A0 A1 A2 P N rest post htype hbuf hpre hdesc h0 h1 h2 hP hN hpc hsz
  have hdiff : note_name_differs d_buf r = false := by
    simpa [note_name_ok] using hname
  refine ⟨vaddr, hv0, ?_⟩
  simp only [dso_sdt_notes_body, hdiff, Bool.false_eq_true, if_false, hnm, haddr]
  by_cases hmin : 1 ≤ P.length + N.length + rest.length
  · simp only [hmin, if_true, hv0, if_false, halloc, realloc_symbols_ok, hdup]
    rw [store_realloc st.symbols st.symbols_count hinv]
  · simp only [hmin, if_false, if_true]

theorem dso_sdt_notes_loop_step (alloc : Nat → Bool) (elf : Elf) (host : ElfData)
    (d : Elf_Data) (fuel offset : Nat) (st st1 : NoteState) (r : NoteRec)
    (hg : gelf_getnote host (some d) offset = some r)
    (hbody : dso_sdt_notes_body alloc elf host d.d_buf r st = some (false, st1)) :
    dso_sdt_notes_loop alloc elf host d (fuel + 1) offset st
      = dso_sdt_notes_loop alloc elf host d fuel r.next st1 := by
  rw [dso_sdt_notes_loop]
  simp only [hg, hbody]

theorem dso_sdt_notes_single_record (alloc : Nat → Bool) (symbols : Option (List dso_symbol))
    (elf : Elf) (host : ElfData) (shdr0 shdr : GElf_Shdr) (scn : Elf_Scn) (d : Elf_Data)
    (r : NoteRec) (st1 : NoteState)
    (hsec : elf_section_by_name elf shdr0 SDT_NOTE_SCN = some (some scn, shdr))
    (htype : shdr.sh_type = SHT_NOTE) (hflags : shdr.sh_flags &&& SHF_ALLOC = 0)
    (hdata : scn.data = some d)
    (hg : gelf_getnote host (some d) 0 = some r)
    (hlast : gelf_getnote host (some d) r.next = none)
    (hbody : dso_sdt_notes_body alloc elf host d.d_buf r ⟨symbols, 0, 0⟩ = some (false, st1)) :
    dso_sdt_notes alloc symbols elf host shdr0 = some (st1.symbols_count, st1.symbols) := by
  have hpos : d.d_buf.length ≠ 0 := by
    intro hz
    simp [gelf_getnote, hz] at hg
  obtain ⟨m, hm⟩ := Nat.exists_eq_succ_of_ne_zero hpos
  unfold dso_sdt_notes
  simp only [hsec, htype, hflags, elf_getdata, hdata, beq_self_eq_true, Bool.not_true,
    bne_self_eq_false, Bool.or_self, Bool.false_eq_true, if_false]
  rw [dso_sdt_notes_loop_step alloc elf host d _ 0 _ st1 r hg hbody, hm, dso_sdt_notes_loop]
  simp only [hlast]

/-- C9: for every record that carries the marker and has type 3, whose
descriptor is three address fields (the first non-zero) followed by the
terminated provider string `P`, the terminated probe string `N` and any
further bytes `rest`, when the list growth succeeds the loop body of
`dso_sdt_notes` appends exactly one entry, whose name is exactly `N`, the
provider being no part of it, and does not leave the loop; the scan goes
on with the next record; and when the record is the whole content of
the section `.note.stapsdt`, `dso_sdt_notes` returns count 1 with the
one-entry list holding the name `N`.  The one exception is the
descriptor of fewer than 3 bytes after the addresses (`P`, `N` and `rest`
all empty), which `sdt_note_addr` rejects, so that nothing is appended. -/
theorem dso_sdt_notes_probe_name (alloc : Nat → Bool) (elf : Elf) (host : ElfData)
    (d : Elf_Data) (fuel offset : Nat) (st : NoteState) (r : NoteRec)
    (pre A0 A1 A2 P N rest post : List Nat)
    (hg : gelf_getnote host (some d) offset = some r)
    (hname : note_name_ok d.d_buf r = true)
    (htype : r.nhdr.n_type = SDT_NOTE_TYPE)
    (hbuf : d.d_buf = pre ++ ((A0 ++ (A1 ++ A2)) ++ (P ++ 0 :: (N ++ 0 :: (rest ++ post)))))
    (hpre : pre.length = r.desc_off)
    (hdesc : r.nhdr.n_descsz
      = 3 * addr_size elf.ei_class + P.length + 1 + N.length + 1 + rest.length)
    (h0 : A0.length = addr_size elf.ei_class) (h1 : A1.length = addr_size elf.ei_class)
    (h2 : A2.length = addr_size elf.ei_class)
    (hP : ∀ b ∈ P, b ≠ 0) (hN : ∀ b ∈ N, b ≠ 0)
    (hpc : decode elf.ei_data A0 ≠ 0) (hsz : r.nhdr.n_descsz < 2 ^ 32)
    (hinv : st.symbols_count ≤ (st.symbols.getD []).length)
    (halloc : alloc st.calls = true) :
    ∃ vaddr, vaddr ≠ 0
      ∧ dso_sdt_notes_body alloc elf host d.d_buf r st
          = (if 1 ≤ P.length + N.length + rest.length then
              some (false,
                ⟨some ((st.symbols.getD []).take st.symbols_count ++ [⟨N, vaddr⟩]),
                 st.symbols_count + 1, st.calls + 1⟩)
            else some (false, st))
      ∧ dso_sdt_notes_loop alloc elf host d (fuel + 1) offset st
          = (if 1 ≤ P.length + N.length + rest.length then
              dso_sdt_notes_loop alloc elf host d fuel r.next
                ⟨some ((st.symbols.getD []).take st.symbols_count ++ [⟨N, vaddr⟩]),
                 st.symbols_count + 1, st.calls + 1⟩
            else
              dso_sdt_notes_loop alloc elf host d fuel r.next st)
      ∧ (∀ (symbols : Option (List dso_symbol)) (shdr0 shdr : GElf_Shdr) (scn : Elf_Scn),
          offset = 0 → st = ⟨symbols, 0, 0⟩ →
          elf_section_by_name elf shdr0 SDT_NOTE_SCN = some (some scn, shdr) →
          shdr.sh_type = SHT_NOTE → shdr.sh_flags &&& SHF_ALLOC = 0 →
          scn.data = some d →
          gelf_getnote host (some d) r.next = none →
          dso_sdt_notes alloc symbols elf host shdr0
            = if 1 ≤ P.length + N.length + rest.length then some (1, some [⟨N, vaddr⟩])
              else some (0, symbols)) := by
  obtain ⟨vaddr, hv0, hbody⟩ := dso_sdt_notes_record_body alloc elf host d.d_buf st r
    pre A0 A1 A2 P N rest post hname htype hbuf hpre hdesc h0 h1 h2 hP hN hpc hsz hinv halloc
  refine ⟨vaddr, hv0, hbody, ?_, ?_⟩
  · by_cases hmin : 1 ≤ P.length + N.length + rest.length
    · rw [if_pos hmin] at hbody
      rw [if_pos hmin]
      exact dso_sdt_notes_loop_step alloc elf host d fuel offset st _ r hg hbody
    · rw [if_neg hmin] at hbody
      rw [if_neg hmin]
      exact dso_sdt_notes_loop_step alloc elf host d fuel offset st _ r hg hbody
  · intro symbols shdr0 shdr scn hoff hst hsec hty hfl hdata hlast
    subst hoff
    subst hst
    by_cases hmin : 1 ≤ P.length + N.length + rest.length
    · rw [if_pos hmin] at hbody
      rw [if_pos hmin]
      have h := dso_sdt_notes_single_record alloc symbols elf host shdr0 shdr scn d r _
        hsec hty hfl hdata hg hlast hbody
      simpa using h
    · rw [if_neg hmin] at hbody
      rw [if_neg hmin]
      exact dso_sdt_notes_single_record alloc symbols elf host shdr0 shdr scn d r _
        hsec hty hfl hdata hg hlast hbody

theorem dso_sdt_notes_probe_name_witness :
    dso_sdt_notes (fun _ => true) none
        (elf_notes .ELFCLASS64 .ELFDATA2LSB notes_single_probe) .ELFDATA2LSB
        ⟨0, 0, 0, 0, 0, 0⟩ = some (1, some [⟨cstr "probe1", 0x401136⟩])
      ∧ ∃ vaddr, vaddr ≠ 0
          ∧ dso_sdt_notes_body (fun _ => true)
              (elf_notes .ELFCLASS64 .ELFDATA2LSB notes_single_probe) .ELFDATA2LSB
              notes_single_probe ⟨60, ⟨8, 37, 3⟩, 12, 20⟩ ⟨none, 0, 0⟩
            = some (false, ⟨some [⟨cstr "probe1", vaddr⟩], 1, 1⟩)
          ∧ dso_sdt_notes (fun _ => true) none
              (elf_notes .ELFCLASS64 .ELFDATA2LSB notes_single_probe) .ELFDATA2LSB
              ⟨0, 0, 0, 0, 0, 0⟩ = some (1, some [⟨cstr "probe1", vaddr⟩]) := by
  refine ⟨by decide, ?_⟩
  obtain ⟨vaddr, hv0, hbody, _, htop⟩ := dso_sdt_notes_probe_name (fun _ => true)
    (elf_notes .ELFCLASS64 .ELFDATA2LSB notes_single_probe) .ELFDATA2LSB
    ⟨notes_single_probe, []⟩ 0 0 ⟨none, 0, 0⟩ ⟨60, ⟨8, 37, 3⟩, 12, 20⟩
    (notes_single_probe.take 20)
    (encode .ELFDATA2LSB 8 0x401136) (encode .ELFDATA2LSB 8 0x402004) (encode .ELFDATA2LSB 8 0)
    (cstr "test") (cstr "probe1") [0] (notes_single_probe.drop 57)
    (by decide) (by decide) rfl (by decide) (by decide) (by decide) (by decide) (by decide)
    (by decide) (by decide) (by decide) (by decide) (by decide) (by decide) rfl
  refine ⟨vaddr, hv0, ?_, ?_⟩
  · exact hbody.trans (if_pos (by decide))
  · exact (htop none ⟨0, 0, 0, 0, 0, 0⟩ (note_shdr notes_single_probe.length)
      ⟨note_shdr notes_single_probe.length, some ⟨notes_single_probe, []⟩⟩ rfl rfl
      (by decide) rfl (by decide) rfl (by decide)).trans (if_pos (by decide))

/-! ### Supporting facts for the failing inputs -/

theorem sdt_note_addr_class64 (elf : Elf) (host : ElfData) (A0 A1 A2 tail : List Nat)
    (len : Nat) (hc : elf.ei_class = .ELFCLASS64)
    (h0 : A0.length = 8) (h1 : A1.length = 8) (h2 : A2.length = 8) (hlen : 27 ≤ len) :
    sdt_note_addr elf host (A0 ++ (A1 ++ A2) ++ tail) 0 len SDT_NOTE_TYPE
      = some (decode elf.ei_data A0) := by
  have hfs : gelf_fsize_addr elf SDT_NOTE_COUNT = 24 := by
    simp [gelf_fsize_addr, hc, addr_size, SDT_NOTE_COUNT]
  have hA : (A0 ++ (A1 ++ A2)).length = 24 := by
    simp only [List.length_append, h0, h1, h2]
  have htake : ((A0 ++ (A1 ++ A2) ++ tail).drop 0).take 24 = A0 ++ (A1 ++ A2) := by
    rw [List.drop_zero, ← hA, List.take_left]
  have hl : ¬ (len < 24 + SDT_NOTE_COUNT) := by unfold SDT_NOTE_COUNT; omega
  have hb : ¬ ((A0 ++ (A1 ++ A2) ++ tail).length < 0 + 24) := by
    rw [List.length_append, hA]; omega
  unfold sdt_note_addr
  simp only [hfs, bne_self_eq_false, Bool.false_eq_true, if_false, hl, hb, htake]
  unfold gelf_xlatetom_addr sizeof_vaddr SDT_NOTE_COUNT
  have ht8 : (A0 ++ (A1 ++ A2)).take 8 = A0 := by rw [← h0, List.take_left]
  split
  · rename_i heq
    rw [ht8, heq]
  · rename_i hne
    have hsw : (swap_objects (addr_size elf.ei_class) 3 (A0 ++ (A1 ++ A2))).take 8
        = A0.reverse := by
      rw [swap_objects, hc]
      simp only [addr_size]
      rw [ht8, List.take_append_eq_append_take, List.take_of_length_le (by simp [h0])]
      simp [h0]
    rw [hsw]
    cases hh : host <;> cases he : elf.ei_data <;> simp_all [decode]

theorem dso_sdt_notes_body_cases (alloc : Nat → Bool) (elf : Elf) (host : ElfData)
    (d_buf : List Nat) (r : NoteRec) (st st1 : NoteState) (b : Bool)
    (h : dso_sdt_notes_body alloc elf host d_buf r st = some (b, st1)) :
    (b = true ∧ st1.symbols_count = 0 ∧ st1.symbols = none)
      ∨ (b = false ∧ st1 = st)
      ∨ (b = false ∧ st1.calls = st.calls + 1 ∧ alloc st.calls = true) := by
  unfold dso_sdt_notes_body at h
  cases hd : note_name_differs d_buf r
  · simp only [hd, Bool.false_eq_true, if_false] at h
    cases hn : sdt_note_name elf r.nhdr d_buf r.desc_off with
    | none => simp [hn] at h
    | some res =>
      cases res with
      | none =>
        simp only [hn, Option.some.injEq, Prod.mk.injEq] at h
        exact Or.inr (Or.inl ⟨h.1.symm, h.2.symm⟩)
      | some name =>
        simp only [hn] at h
        cases ha : sdt_note_addr elf host d_buf r.desc_off r.nhdr.n_descsz r.nhdr.n_type with
        | none => simp [ha] at h
        | some vaddr =>
          simp only [ha] at h
          by_cases hv : vaddr = 0
          · simp only [hv, if_true, Option.some.injEq, Prod.mk.injEq] at h
            exact Or.inr (Or.inl ⟨h.1.symm, h.2.symm⟩)
          · simp only [hv, if_false] at h
            cases hal : alloc st.calls
            · simp only [hal, realloc_symbols_fail, Option.some.injEq, Prod.mk.injEq] at h
              obtain ⟨h1, h2⟩ := h
              subst h2
              exact Or.inl ⟨h1.symm, rfl, rfl⟩
            · simp only [hal, realloc_symbols_ok] at h
              cases hs : strdup_at d_buf name with
              | none => simp [hs] at h
              | some str =>
                simp only [hs, Option.some.injEq, Prod.mk.injEq] at h
                obtain ⟨h1, h2⟩ := h
                subst h2
                exact Or.inr (Or.inr ⟨h1.symm, rfl, rfl⟩)
  · simp only [hd, if_true, Option.some.injEq, Prod.mk.injEq] at h
    exact Or.inr (Or.inl ⟨h.1.symm, h.2.symm⟩)

theorem dso_sdt_notes_run_growth_failure (alloc : Nat → Bool) (elf : Elf) (host : ElfData)
    (d_buf : List Nat) :
    ∀ (rs : List NoteRec) (st st1 : NoteState),
      dso_sdt_notes_run alloc elf host d_buf rs st = some st1 →
      (st1.symbols_count = 0 ∧ st1.symbols = none)
        ∨ (∀ k, st.calls ≤ k → k < st1.calls → alloc k = true) := by
  intro rs
  induction rs with
  | nil =>
    intro st st1 h
    simp only [dso_sdt_notes_run, Option.some.injEq] at h
    subst h
    exact Or.inr (fun k h1 h2 => absurd h2 (by omega))
  | cons r t ih =>
    intro st st1 h
    rw [dso_sdt_notes_run] at h
    cases hb : dso_sdt_notes_body alloc elf host d_buf r st with
    | none => simp [hb] at h
    | some p =>
      obtain ⟨b, st2⟩ := p
      rcases dso_sdt_notes_body_cases alloc elf host d_buf r st st2 b hb with
        ⟨hb1, hc, hn⟩ | ⟨hb1, hst⟩ | ⟨hb1, hcalls, hal⟩
      · subst hb1
        simp only [hb, Option.some.injEq] at h
        subst h
        exact Or.inl ⟨hc, hn⟩
      · subst hb1
        subst hst
        simp only [hb] at h
        exact ih _ _ h
      · subst hb1
        simp only [hb] at h
        rcases ih _ _ h with hl | hr
        · exact Or.inl hl
        · right
          intro k hk1 hk2
          rcases Nat.eq_or_lt_of_le hk1 with heq | hlt
          · rw [← heq]; exact hal
          · exact hr k (by omega) hk2

theorem sdt_note_name_unterminated (elf : Elf) (nhdr : GElf_Nhdr) (d_buf : List Nat)
    (data : Nat) (pre A T post : List Nat)
    (hbuf : d_buf = pre ++ (A ++ (T ++ post))) (hpre : pre.length = data)
    (hA : A.length = 3 * addr_size elf.ei_class)
    (hdesc : nhdr.n_descsz = A.length + T.length)
    (hT : ∀ b ∈ T, b ≠ 0) (hsz : nhdr.n_descsz < 2 ^ 32) :
    sdt_note_name elf nhdr d_buf data = some none := by
  have hfs : gelf_fsize_addr elf SDT_NOTE_COUNT = 3 * addr_size elf.ei_class := rfl
  have hdrop : d_buf.drop (data + 3 * addr_size elf.ei_class) = T ++ post := by
    rw [← List.drop_drop, hbuf, ← hpre, List.drop_left, ← hA, List.drop_left]
  have hlen : sdt_note_name_len elf nhdr data = T.length := by
    unfold sdt_note_name_len
    rw [hfs, hdesc, hA]
    rw [hdesc, hA] at hsz
    norm_num at hsz ⊢
    omega
  unfold sdt_note_name
  simp only [hfs, hdrop, hlen]
  rw [memchr_zero_absent T hT post]

/-! ### Second group of statements: failing inputs -/

/-- C11 (failing input): the second of three function symbols has a name
offset for which `elf_strptr` returns `NULL`; `dso_symbols` has no test of
that result and passes it to `strdup`, so the run is undefined instead of
returning the first and the third symbol. -/
theorem dso_symbols_name_lookup_failure_undefined :
    elf_bad_name.strptr 2 99 = none
      ∧ find_load_address elf_bad_name = 0x400000
      ∧ dso_symbols (fun _ => true) none elf_bad_name ⟨0, 0, 0⟩ = none := by
  decide

/-- C17 (failing input): when `realloc` fails on a list of `n` entries,
`realloc_symbols` was called with the new count `n + 1` and hands that
count to `free_dso_symbols`, whose loop reads the names of the indices
0 to `n`; index `n` is past the last entry of the list. -/
theorem realloc_symbols_frees_index_n (symbols : List dso_symbol) :
    (realloc_symbols false (some symbols) (symbols.length + 1)).1 = none
      ∧ (realloc_symbols false (some symbols) (symbols.length + 1)).2
          = List.range (symbols.length + 1)
      ∧ symbols.length ∈ (realloc_symbols false (some symbols) (symbols.length + 1)).2
      ∧ symbols[symbols.length]? = none := by
  refine ⟨by simp [realloc_symbols], by simp [realloc_symbols, free_dso_symbols], ?_, ?_⟩
  · simp [realloc_symbols, free_dso_symbols]
  · simp

/-- C18 (failing input): for a header of type `SHT_SYMTAB` with
`sh_entsize` 0 the quotient `sh_size / sh_entsize` of `elf_symbols` is a
division by zero, and the scan of an image with such a section is
undefined at the first test of the loop condition. -/
theorem elf_symbols_division_by_zero :
    shdr_zero_entsize.sh_type = SHT_SYMTAB
      ∧ elf_symbols shdr_zero_entsize = none
      ∧ dso_symbols (fun _ => true) none elf_zero_entsize ⟨0, 0, 0⟩ = none := by
  decide

/-- C12 (as stated) fails: a function symbol whose string-table name is
the empty string, and a stapsdt note whose probe-name string is empty,
each produce an entry, with the empty name. -/
theorem empty_names_are_stored :
    dso_symbols (fun _ => true) none elf_empty_name ⟨0, 0, 0⟩
        = some (2, some [⟨[], 0x1000⟩, ⟨cstr "low", 0x2000⟩])
      ∧ dso_sdt_notes (fun _ => true) none
          (elf_notes .ELFCLASS64 .ELFDATA2LSB notes_empty_probe) .ELFDATA2LSB
          ⟨0, 0, 0, 0, 0, 0⟩ = some (1, some [⟨[], 0x401136⟩]) := by
  decide

/-! ### Second group of statements: `find_load_address` and the section lookup -/

theorem find_load_address_zero_vaddr (elf : Elf)
    (h : ∀ header ∈ elf.phdrs, is_load_zero header = true → header.p_vaddr = 0) :
    find_load_address elf = 0 := by
  unfold find_load_address
  rw [find_load_address_loop_take elf.phdrs elf.phdrs.length (Nat.le_refl _), List.take_length]
  cases hf : elf.phdrs.reverse.find? is_load_zero with
  | none => rfl
  | some header =>
    have hm : header ∈ elf.phdrs := List.mem_reverse.mp (List.mem_of_find?_eq_some hf)
    have hz : is_load_zero header = true := List.find?_some hf
    simp [h header hm hz]

/-- C19: for every image whose zero-offset `PT_LOAD` segments have
`p_vaddr` 0, as in position-independent executables and shared objects,
`dso_symbols` returns count 0 and leaves the list as it was, whatever the
symbol tables contain: the address 0 is read as "no segment". -/
theorem dso_symbols_zero_vaddr (alloc : Nat → Bool) (symbols : Option (List dso_symbol))
    (elf : Elf) (sym0 : GElf_Sym)
    (h : ∀ header ∈ elf.phdrs, is_load_zero header = true → header.p_vaddr = 0) :
    dso_symbols alloc symbols elf sym0 = some (0, symbols) := by
  unfold dso_symbols
  simp [find_load_address_zero_vaddr elf h]

theorem dso_symbols_zero_vaddr_witness :
    (∃ header ∈ elf_pie.phdrs, is_load_zero header = true)
      ∧ (∃ d, symtab_example.data = some d ∧ symtab_funcs symtab_example.shdr d ≠ [])
      ∧ dso_symbols (fun _ => true) none elf_pie ⟨0, 0, 0⟩ = some (0, none) :=
  ⟨by decide, ⟨_, rfl, by decide⟩,
   dso_symbols_zero_vaddr (fun _ => true) none elf_pie ⟨0, 0, 0⟩ (by decide)⟩

theorem elf_section_by_name_loop_found (elf : Elf) (name : List Nat) (scn : Elf_Scn)
    (post : List Elf_Scn)
    (hscn : elf.strptr elf.e_shstrndx scn.shdr.sh_name = some name) :
    ∀ (pre : List Elf_Scn) (shp : GElf_Shdr),
      (∀ s ∈ pre, ∃ str, elf.strptr elf.e_shstrndx s.shdr.sh_name = some str ∧ str ≠ name) →
      elf_section_by_name_loop elf name (pre ++ scn :: post) shp
        = some (some scn, scn.shdr) := by
  intro pre
  induction pre with
  | nil =>
    intro shp _
    simp [elf_section_by_name_loop, hscn]
  | cons s t ih =>
    intro shp h
    obtain ⟨str, hstr, hne⟩ := h s (List.mem_cons_self _ _)
    rw [List.cons_append, elf_section_by_name_loop]
    simp only [hstr, Ne.symm hne, if_false]
    exact ih s.shdr (fun x hx => h x (List.mem_cons_of_mem _ hx))

theorem elf_section_by_name_loop_absent (elf : Elf) (name : List Nat) :
    ∀ (l : List Elf_Scn) (shp : GElf_Shdr),
      (∀ s ∈ l, ∃ str, elf.strptr elf.e_shstrndx s.shdr.sh_name = some str ∧ str ≠ name) →
      ∃ shp1, elf_section_by_name_loop elf name l shp = some (none, shp1) := by
  intro l
  induction l with
  | nil => intro shp _; exact ⟨shp, rfl⟩
  | cons s t ih =>
    intro shp h
    obtain ⟨str, hstr, hne⟩ := h s (List.mem_cons_self _ _)
    rw [elf_section_by_name_loop]
    simp only [hstr, Ne.symm hne, if_false]
    exact ih s.shdr (fun x hx => h x (List.mem_cons_of_mem _ hx))

/-- The lookup where every name met resolves: when the section-name
string table is readable and the names of the sections met resolve,
`elf_section_by_name` returns the first section
in container order whose name equals the requested name byte for byte,
with `*shp` holding the header of that section; and it returns `NULL`
when the name of every section resolves to another string. -/
theorem elf_section_by_name_first_match (elf : Elf) (shp : GElf_Shdr) (name : List Nat)
    (hraw : (elf_rawdata (elf_getscn elf elf.e_shstrndx)).isSome = true) :
    (∀ (pre post : List Elf_Scn) (scn : Elf_Scn), elf.scns = pre ++ scn :: post →
        (∀ s ∈ pre, ∃ str, elf.strptr elf.e_shstrndx s.shdr.sh_name = some str ∧ str ≠ name) →
        elf.strptr elf.e_shstrndx scn.shdr.sh_name = some name →
        elf_section_by_name elf shp name = some (some scn, scn.shdr))
      ∧ ((∀ s ∈ elf.scns,
            ∃ str, elf.strptr elf.e_shstrndx s.shdr.sh_name = some str ∧ str ≠ name) →
          ∃ shp1, elf_section_by_name elf shp name = some (none, shp1)) := by
  have hnot : (elf_rawdata (elf_getscn elf elf.e_shstrndx)).isNone = false := by
    cases hr : elf_rawdata (elf_getscn elf elf.e_shstrndx) with
    | none => rw [hr] at hraw; simp at hraw
    | some d => rfl
  constructor
  · intro pre post scn hscns hpre hscn
    unfold elf_section_by_name
    simp only [hnot, Bool.false_eq_true, if_false]
    rw [hscns]
    exact elf_section_by_name_loop_found elf name scn post hscn pre shp hpre
  · intro hall
    unfold elf_section_by_name
    simp only [hnot, Bool.false_eq_true, if_false]
    exact elf_section_by_name_loop_absent elf name elf.scns shp hall

theorem elf_section_by_name_first_match_witness :
    elf_section_by_name (elf_notes .ELFCLASS64 .ELFDATA2LSB notes_marker_example)
        ⟨0, 0, 0, 0, 0, 0⟩ (cstr ".shstrtab") = some (some shstrtab_scn, shstrtab_scn.shdr)
      ∧ ∃ shp1, elf_section_by_name (elf_notes .ELFCLASS64 .ELFDATA2LSB notes_marker_example)
          ⟨0, 0, 0, 0, 0, 0⟩ (cstr ".Note.stapsdt") = some (none, shp1) :=
  ⟨(elf_section_by_name_first_match (elf_notes .ELFCLASS64 .ELFDATA2LSB notes_marker_example)
      ⟨0, 0, 0, 0, 0, 0⟩ (cstr ".shstrtab") (by decide)).1
      [⟨note_shdr notes_marker_example.length, some ⟨notes_marker_example, []⟩⟩] []
      shstrtab_scn rfl (by decide) (by decide),
   (elf_section_by_name_first_match (elf_notes .ELFCLASS64 .ELFDATA2LSB notes_marker_example)
      ⟨0, 0, 0, 0, 0, 0⟩ (cstr ".Note.stapsdt") (by decide)).2 (by decide)⟩

/-- C15: when the raw data of the section-name string table (section
`e_shstrndx`) cannot be read, `elf_section_by_name` returns `NULL` for
every name and leaves `*shp` as it was, whatever `elf_strptr` would
return (it is not called: no result of it, not even `NULL` for every
section, changes the outcome), and `dso_sdt_notes` returns count 0 with
the list untouched. -/
theorem elf_section_by_name_unreadable (elf : Elf)
    (h : elf_rawdata (elf_getscn elf elf.e_shstrndx) = none)
    (f : Nat → Nat → Option (List Nat)) (alloc : Nat → Bool)
    (symbols : Option (List dso_symbol)) (host : ElfData) (shp : GElf_Shdr)
    (name : List Nat) :
    elf_section_by_name { elf with strptr := f } shp name = some (none, shp)
      ∧ dso_sdt_notes alloc symbols { elf with strptr := f } host shp = some (0, symbols) := by
  have h2 : elf_rawdata (elf_getscn { elf with strptr := f }
      ({ elf with strptr := f } : Elf).e_shstrndx) = none := h
  have h3 : ∀ nm, elf_section_by_name { elf with strptr := f } shp nm = some (none, shp) := by
    intro nm
    unfold elf_section_by_name
    rw [h2]
    rfl
  refine ⟨h3 name, ?_⟩
  unfold dso_sdt_notes
  rw [h3 SDT_NOTE_SCN]

theorem elf_section_by_name_unreadable_witness :
    elf_section_by_name elf_unreadable_shstrtab ⟨0, 0, 0, 0, 0, 0⟩ SDT_NOTE_SCN
        = some (none, ⟨0, 0, 0, 0, 0, 0⟩)
      ∧ dso_sdt_notes (fun _ => true) none elf_unreadable_shstrtab .ELFDATA2LSB
          ⟨0, 0, 0, 0, 0, 0⟩ = some (0, none) :=
  elf_section_by_name_unreadable elf_unreadable_shstrtab (by decide) (fun _ _ => none)
    (fun _ => true) none .ELFDATA2LSB ⟨0, 0, 0, 0, 0, 0⟩ SDT_NOTE_SCN

/-- The section test where every name met resolves: `dso_sdt_notes`
returns count 0 with the list untouched when the
name of every section resolves to a string other than `.note.stapsdt`,
and when the first section named `.note.stapsdt` has a type other than
`SHT_NOTE` or has `SHF_ALLOC` set; the second part holds for every
content of that section, so its note records are examined only when the
type is `SHT_NOTE` and `SHF_ALLOC` is clear. -/
theorem dso_sdt_notes_section_validity (alloc : Nat → Bool)
    (symbols : Option (List dso_symbol)) (elf : Elf) (host : ElfData) (shdr0 : GElf_Shdr) :
    ((∀ s ∈ elf.scns, ∃ str,
          elf.strptr elf.e_shstrndx s.shdr.sh_name = some str ∧ str ≠ SDT_NOTE_SCN) →
        dso_sdt_notes alloc symbols elf host shdr0 = some (0, symbols))
      ∧ (∀ (pre post : List Elf_Scn) (scn : Elf_Scn), elf.scns = pre ++ scn :: post →
          (∀ s ∈ pre, ∃ str,
            elf.strptr elf.e_shstrndx s.shdr.sh_name = some str ∧ str ≠ SDT_NOTE_SCN) →
          elf.strptr elf.e_shstrndx scn.shdr.sh_name = some SDT_NOTE_SCN →
          (scn.shdr.sh_type ≠ SHT_NOTE ∨ scn.shdr.sh_flags &&& SHF_ALLOC ≠ 0) →
          dso_sdt_notes alloc symbols elf host shdr0 = some (0, symbols)) := by
  constructor
  · intro hall
    unfold dso_sdt_notes elf_section_by_name
    cases hr : (elf_rawdata (elf_getscn elf elf.e_shstrndx)).isNone
    · obtain ⟨shp1, h1⟩ := elf_section_by_name_loop_absent elf SDT_NOTE_SCN elf.scns shdr0 hall
      simp only [Bool.false_eq_true, if_false, h1]
    · simp only [if_true]
  · intro pre post scn hscns hpre hscn hbad
    unfold dso_sdt_notes elf_section_by_name
    cases hr : (elf_rawdata (elf_getscn elf elf.e_shstrndx)).isNone
    · have h1 := elf_section_by_name_loop_found elf SDT_NOTE_SCN scn post hscn pre shdr0 hpre
      rw [← hscns] at h1
      simp only [Bool.false_eq_true, if_false, h1]
      have hcond : (!(scn.shdr.sh_type == SHT_NOTE)
          || (scn.shdr.sh_flags &&& SHF_ALLOC != 0)) = true := by
        rcases hbad with h | h
        · simp [h]
        · simp [h]
      simp only [hcond, if_true]
    · simp only [if_true]

theorem dso_sdt_notes_section_validity_witness :
    dso_sdt_notes (fun _ => true) none elf_without_notes .ELFDATA2LSB ⟨0, 0, 0, 0, 0, 0⟩
        = some (0, none)
      ∧ dso_sdt_notes (fun _ => true) none elf_alloc_note .ELFDATA2LSB ⟨0, 0, 0, 0, 0, 0⟩
        = some (0, none) :=
  ⟨(dso_sdt_notes_section_validity (fun _ => true) none elf_without_notes .ELFDATA2LSB
      ⟨0, 0, 0, 0, 0, 0⟩).1 (by decide),
   (dso_sdt_notes_section_validity (fun _ => true) none elf_alloc_note .ELFDATA2LSB
      ⟨0, 0, 0, 0, 0, 0⟩).2 [] [shstrtab_scn] note_scn_alloc rfl (by decide) (by decide)
      (Or.inr (by decide))⟩

/-! ### Second group of statements: the note type -/

theorem sdt_note_addr_other_type (elf : Elf) (host : ElfData) (d_buf : List Nat)
    (data len type : Nat) (h : type ≠ SDT_NOTE_TYPE) :
    sdt_note_addr elf host d_buf data len type = some 0 := by
  unfold sdt_note_addr
  have hne : (type != SDT_NOTE_TYPE) = true := by simp [bne, h]
  simp only [hne, if_true]

theorem dso_sdt_notes_body_other_type (alloc : Nat → Bool) (elf : Elf) (host : ElfData)
    (d_buf : List Nat) (r : NoteRec) (st : NoteState)
    (h : r.nhdr.n_type ≠ SDT_NOTE_TYPE) :
    dso_sdt_notes_body alloc elf host d_buf r st
      = if sdt_note_name elf r.nhdr d_buf r.desc_off = none
          ∧ note_name_differs d_buf r = false then none
        else some (false, st) := by
  unfold dso_sdt_notes_body
  rw [sdt_note_addr_other_type elf host d_buf r.desc_off r.nhdr.n_descsz r.nhdr.n_type h]
  cases hd : note_name_differs d_buf r
  · cases hn : sdt_note_name elf r.nhdr d_buf r.desc_off with
    | none => simp
    | some res => cases res <;> simp
  · simp

/-- C20: for every record whose note type is not 3, `sdt_note_addr`
returns 0, every defined outcome of the loop body leaves the list and the
count as they were, and when the name search of `sdt_note_name` stays
inside the data (as it does for a record with a valid descriptor) the
record is skipped and the scan goes on with the next record: an entry is
appended for a stapsdt-named record only if its type is 3. -/
theorem dso_sdt_notes_type_filter (alloc : Nat → Bool) (elf : Elf) (host : ElfData)
    (d : Elf_Data) (fuel offset : Nat) (st : NoteState) (r : NoteRec)
    (hg : gelf_getnote host (some d) offset = some r)
    (htype : r.nhdr.n_type ≠ SDT_NOTE_TYPE) :
    sdt_note_addr elf host d.d_buf r.desc_off r.nhdr.n_descsz r.nhdr.n_type = some 0
      ∧ (∀ b st1, dso_sdt_notes_body alloc elf host d.d_buf r st = some (b, st1) →
          b = false ∧ st1 = st)
      ∧ (sdt_note_name elf r.nhdr d.d_buf r.desc_off ≠ none →
          dso_sdt_notes_loop alloc elf host d (fuel + 1) offset st
            = dso_sdt_notes_loop alloc elf host d fuel r.next st) := by
  have hbody := dso_sdt_notes_body_other_type alloc elf host d.d_buf r st htype
  refine ⟨sdt_note_addr_other_type elf host d.d_buf _ _ _ htype, ?_, ?_⟩
  · intro b st1 hb
    rw [hbody] at hb
    split at hb
    · simp at hb
    · simp only [Option.some.injEq, Prod.mk.injEq] at hb
      exact ⟨hb.1.symm, hb.2.symm⟩
  · intro hdef
    rw [dso_sdt_notes_loop]
    simp only [hg, hbody]
    rw [if_neg (fun hc => hdef hc.1)]

theorem dso_sdt_notes_type_filter_witness :
    note_name_ok notes_type4 ⟨60, ⟨8, 37, 4⟩, 12, 20⟩ = true
      ∧ sdt_note_addr (elf_notes .ELFCLASS64 .ELFDATA2LSB notes_type4) .ELFDATA2LSB
          notes_type4 20 37 4 = some 0
      ∧ dso_sdt_notes_loop (fun _ => true) (elf_notes .ELFCLASS64 .ELFDATA2LSB notes_type4)
          .ELFDATA2LSB ⟨notes_type4, []⟩ (1 + 1) 0 ⟨none, 0, 0⟩
          = dso_sdt_notes_loop (fun _ => true) (elf_notes .ELFCLASS64 .ELFDATA2LSB notes_type4)
              .ELFDATA2LSB ⟨notes_type4, []⟩ 1 60 ⟨none, 0, 0⟩
      ∧ dso_sdt_notes (fun _ => true) none (elf_notes .ELFCLASS64 .ELFDATA2LSB notes_type4)
          .ELFDATA2LSB ⟨0, 0, 0, 0, 0, 0⟩ = some (0, none) :=
  ⟨by decide,
   (dso_sdt_notes_type_filter (fun _ => true) (elf_notes .ELFCLASS64 .ELFDATA2LSB notes_type4)
      .ELFDATA2LSB ⟨notes_type4, []⟩ 1 0 ⟨none, 0, 0⟩ ⟨60, ⟨8, 37, 4⟩, 12, 20⟩
      (by decide) (by decide)).1,
   (dso_sdt_notes_type_filter (fun _ => true) (elf_notes .ELFCLASS64 .ELFDATA2LSB notes_type4)
      .ELFDATA2LSB ⟨notes_type4, []⟩ 1 0 ⟨none, 0, 0⟩ ⟨60, ⟨8, 37, 4⟩, 12, 20⟩
      (by decide) (by decide)).2.2 (by decide),
   by decide⟩

/-! ### Second group of statements: no bias correction of the notes -/

theorem sdt_note_addr_phdrs (elf : Elf) (phdrs : List GElf_Phdr) (host : ElfData)
    (d_buf : List Nat) (data len type : Nat) :
    sdt_note_addr { elf with phdrs := phdrs } host d_buf data len type
      = sdt_note_addr elf host d_buf data len type := rfl

theorem dso_sdt_notes_body_phdrs (alloc : Nat → Bool) (elf : Elf) (phdrs : List GElf_Phdr)
    (host : ElfData) (d_buf : List Nat) (r : NoteRec) (st : NoteState) :
    dso_sdt_notes_body alloc { elf with phdrs := phdrs } host d_buf r st
      = dso_sdt_notes_body alloc elf host d_buf r st := rfl

theorem dso_sdt_notes_loop_phdrs (alloc : Nat → Bool) (elf : Elf) (phdrs : List GElf_Phdr)
    (host : ElfData) (d : Elf_Data) :
    ∀ (fuel offset : Nat) (st : NoteState),
      dso_sdt_notes_loop alloc { elf with phdrs := phdrs } host d fuel offset st
        = dso_sdt_notes_loop alloc elf host d fuel offset st := by
  intro fuel
  induction fuel with
  | zero => intro offset st; rfl
  | succ k ih =>
    intro offset st
    rw [dso_sdt_notes_loop, dso_sdt_notes_loop]
    cases gelf_getnote host (some d) offset with
    | none => rfl
    | some r =>
      simp only [dso_sdt_notes_body_phdrs]
      cases dso_sdt_notes_body alloc elf host d.d_buf r st with
      | none => rfl
      | some p =>
        obtain ⟨b, st1⟩ := p
        cases b
        · exact ih r.next st1
        · rfl

theorem elf_section_by_name_loop_phdrs (elf : Elf) (phdrs : List GElf_Phdr)
    (name : List Nat) :
    ∀ (l : List Elf_Scn) (shp : GElf_Shdr),
      elf_section_by_name_loop { elf with phdrs := phdrs } name l shp
        = elf_section_by_name_loop elf name l shp := by
  intro l
  induction l with
  | nil => intro shp; rfl
  | cons s t ih =>
    intro shp
    rw [elf_section_by_name_loop, elf_section_by_name_loop]
    simp only
    cases elf.strptr elf.e_shstrndx s.shdr.sh_name with
    | none => rfl
    | some str =>
      simp only
      split
      · rfl
      · exact ih s.shdr

theorem dso_sdt_notes_body_stores_addr (alloc : Nat → Bool) (elf : Elf) (host : ElfData)
    (d_buf : List Nat) (r : NoteRec) (st st1 : NoteState) (b : Bool)
    (h : dso_sdt_notes_body alloc elf host d_buf r st = some (b, st1))
    (hc : st1.symbols_count = st.symbols_count + 1) :
    ∃ arr name vaddr,
      sdt_note_addr elf host d_buf r.desc_off r.nhdr.n_descsz r.nhdr.n_type = some vaddr
        ∧ st1.symbols = some (store_symbol arr (st.symbols_count + 1) ⟨name, vaddr⟩) := by
  unfold dso_sdt_notes_body at h
  cases hd : note_name_differs d_buf r
  · simp only [hd, Bool.false_eq_true, if_false] at h
    cases hn : sdt_note_name elf r.nhdr d_buf r.desc_off with
    | none => simp [hn] at h
    | some res =>
      cases res with
      | none =>
        simp only [hn, Option.some.injEq, Prod.mk.injEq] at h
        rw [← h.2] at hc
        omega
      | some name =>
        simp only [hn] at h
        cases ha : sdt_note_addr elf host d_buf r.desc_off r.nhdr.n_descsz r.nhdr.n_type with
        | none => simp [ha] at h
        | some vaddr =>
          simp only [ha] at h
          by_cases hv : vaddr = 0
          · simp only [hv, if_true, Option.some.injEq, Prod.mk.injEq] at h
            rw [← h.2] at hc
            omega
          · simp only [hv, if_false] at h
            cases hr : (realloc_symbols (alloc st.calls) st.symbols (st.symbols_count + 1)).1 with
            | none =>
              simp only [hr, Option.some.injEq, Prod.mk.injEq] at h
              rw [← h.2] at hc
              simp at hc
            | some arr =>
              simp only [hr] at h
              cases hs : strdup_at d_buf name with
              | none => simp [hs] at h
              | some str =>
                simp only [hs, Option.some.injEq, Prod.mk.injEq] at h
                exact ⟨arr, str, vaddr, rfl, by rw [← h.2]⟩
  · simp only [hd, if_true, Option.some.injEq, Prod.mk.injEq] at h
    rw [← h.2] at hc
    omega

/-- C16: the result of `dso_sdt_notes` does not depend on the program
header table: two images that differ in their program headers only, hence
in load bias, give the same count and the same list; `sdt_note_addr` does
not depend on it either, and the address of every entry that the loop
body appends is the value returned by `sdt_note_addr`, the decoded note
address, with nothing subtracted. -/
theorem dso_sdt_notes_ignores_program_headers (alloc : Nat → Bool)
    (symbols : Option (List dso_symbol)) (elf : Elf) (host : ElfData) (shdr0 : GElf_Shdr)
    (phdrs : List GElf_Phdr) :
    dso_sdt_notes alloc symbols { elf with phdrs := phdrs } host shdr0
        = dso_sdt_notes alloc symbols elf host shdr0
      ∧ (∀ d_buf data len type,
          sdt_note_addr { elf with phdrs := phdrs } host d_buf data len type
            = sdt_note_addr elf host d_buf data len type)
      ∧ (∀ d_buf r st b st1,
          dso_sdt_notes_body alloc elf host d_buf r st = some (b, st1) →
          st1.symbols_count = st.symbols_count + 1 →
          ∃ arr name vaddr,
            sdt_note_addr elf host d_buf r.desc_off r.nhdr.n_descsz r.nhdr.n_type = some vaddr
              ∧ st1.symbols = some (store_symbol arr (st.symbols_count + 1) ⟨name, vaddr⟩)) := by
  refine ⟨?_, fun d_buf data len type => rfl, ?_⟩
  · have hsec : elf_section_by_name { elf with phdrs := phdrs } shdr0 SDT_NOTE_SCN
        = elf_section_by_name elf shdr0 SDT_NOTE_SCN := by
      unfold elf_section_by_name
      rw [elf_section_by_name_loop_phdrs]
      rfl
    unfold dso_sdt_notes
    rw [hsec]
    cases elf_section_by_name elf shdr0 SDT_NOTE_SCN with
    | none => rfl
    | some p =>
      obtain ⟨found, shdr⟩ := p
      cases found with
      | none => rfl
      | some scn =>
        simp only
        split
        · rfl
        · cases elf_getdata scn none with
          | none => rfl
          | some d =>
            simp only
            rw [dso_sdt_notes_loop_phdrs]
  · intro d_buf r st b st1 h hc
    exact dso_sdt_notes_body_stores_addr alloc elf host d_buf r st st1 b h hc

theorem dso_sdt_notes_ignores_program_headers_witness :
    find_load_address (elf_notes .ELFCLASS64 .ELFDATA2LSB notes_marker_example) = 0x400000
      ∧ find_load_address { elf_notes .ELFCLASS64 .ELFDATA2LSB notes_marker_example with
          phdrs := [⟨PT_LOAD, 0, 0x10000⟩] } = 0x10000
      ∧ dso_sdt_notes (fun _ => true) none
          { elf_notes .ELFCLASS64 .ELFDATA2LSB notes_marker_example with
            phdrs := [⟨PT_LOAD, 0, 0x10000⟩] } .ELFDATA2LSB ⟨0, 0, 0, 0, 0, 0⟩
          = dso_sdt_notes (fun _ => true) none
              (elf_notes .ELFCLASS64 .ELFDATA2LSB notes_marker_example) .ELFDATA2LSB
              ⟨0, 0, 0, 0, 0, 0⟩
      ∧ dso_sdt_notes (fun _ => true) none
          (elf_notes .ELFCLASS64 .ELFDATA2LSB notes_marker_example) .ELFDATA2LSB
          ⟨0, 0, 0, 0, 0, 0⟩ = some (1, some [⟨cstr "probe1", 0x401136⟩])
      ∧ ∃ arr name vaddr,
          sdt_note_addr (elf_notes .ELFCLASS64 .ELFDATA2LSB notes_marker_example) .ELFDATA2LSB
              notes_marker_example 20 37 3 = some vaddr
            ∧ some [(⟨cstr "probe1", 0x401136⟩ : dso_symbol)]
                = some (store_symbol arr (0 + 1) ⟨name, vaddr⟩) :=
  ⟨by decide, by decide,
   (dso_sdt_notes_ignores_program_headers (fun _ => true) none
      (elf_notes .ELFCLASS64 .ELFDATA2LSB notes_marker_example) .ELFDATA2LSB
      ⟨0, 0, 0, 0, 0, 0⟩ [⟨PT_LOAD, 0, 0x10000⟩]).1,
   by decide,
   (dso_sdt_notes_ignores_program_headers (fun _ => true) none
      (elf_notes .ELFCLASS64 .ELFDATA2LSB notes_marker_example) .ELFDATA2LSB
      ⟨0, 0, 0, 0, 0, 0⟩ [⟨PT_LOAD, 0, 0x10000⟩]).2.2 notes_marker_example
      ⟨60, ⟨8, 37, 3⟩, 12, 20⟩ ⟨none, 0, 0⟩ false
      ⟨some [⟨cstr "probe1", 0x401136⟩], 1, 1⟩ (by decide) (by decide)⟩

/-! ### Second group of statements: names are stored as found -/

theorem dso_symbols_single_table (elf : Elf) (symbols : Option (List dso_symbol))
    (sym0 : GElf_Sym) (pre post : List Elf_Scn) (scn : Elf_Scn) (d : Elf_Data)
    (hB : find_load_address elf ≠ 0)
    (hscns : elf.scns = pre ++ scn :: post)
    (hpre : ∀ s ∈ pre, s.shdr.sh_type ≠ SHT_SYMTAB)
    (hpost : ∀ s ∈ post, s.shdr.sh_type ≠ SHT_SYMTAB)
    (htype : scn.shdr.sh_type = SHT_SYMTAB)
    (hdata : scn.data = some d)
    (hent : scn.shdr.sh_entsize ≠ 0)
    (hcount : scn.shdr.sh_size / scn.shdr.sh_entsize ≤ d.syms.length)
    (hmax : scn.shdr.sh_size / scn.shdr.sh_entsize ≤ INT_MAX)
    (hnames : ∀ sym ∈ symtab_funcs scn.shdr d,
      (elf.strptr scn.shdr.sh_link sym.st_name).isSome = true) :
    dso_symbols (fun _ => true) symbols elf sym0
        = some (((symtab_funcs scn.shdr d).map
                  (symbol_entry elf (find_load_address elf) scn.shdr)).length,
                if (symtab_funcs scn.shdr d).map
                    (symbol_entry elf (find_load_address elf) scn.shdr) = []
                then symbols
                else some ((symtab_funcs scn.shdr d).map
                  (symbol_entry elf (find_load_address elf) scn.shdr))) := by
  have hsym : (scn.shdr.sh_type != SHT_SYMTAB) = false := by simp [bne, htype]
  have hnames2 : ∀ sym ∈ (d.syms.drop 0).take (scn.shdr.sh_size / scn.shdr.sh_entsize),
      is_func sym = true → (elf.strptr scn.shdr.sh_link sym.st_name).isSome = true := by
    intro sym hm hf
    exact hnames sym (by
      unfold symtab_funcs
      exact List.mem_filter.mpr ⟨by simpa using hm, hf⟩)
  obtain ⟨st1, h1, _, _, h4, h5⟩ := dso_symbols_for_ok elf (find_load_address elf) scn.shdr d
    (scn.shdr.sh_size / scn.shdr.sh_entsize) 0
    ⟨some d, sym0, symbols, 0, 0⟩ rfl (by omega) (by omega) (Nat.zero_le _) hnames2
  have happ : ∀ (l : List Elf_Scn) (st : SymState),
      (∀ s ∈ l, s.shdr.sh_type ≠ SHT_SYMTAB) →
      dso_symbols_scns (fun _ => true) elf (find_load_address elf) (l ++ scn :: post) st
        = dso_symbols_scns (fun _ => true) elf (find_load_address elf) (scn :: post) st := by
    intro l
    induction l with
    | nil => intro st _; rfl
    | cons s t ih =>
      intro st h
      have hs : (s.shdr.sh_type != SHT_SYMTAB) = true := by
        simpa [bne] using h s (List.mem_cons_self _ _)
      rw [List.cons_append, dso_symbols_scns]
      simp only [hs, if_true]
      exact ih st (fun x hx => h x (List.mem_cons_of_mem _ hx))
  have hrun : dso_symbols_scns (fun _ => true) elf (find_load_address elf) elf.scns
      ⟨none, sym0, symbols, 0, 0⟩ = some st1 := by
    rw [hscns, happ pre _ hpre, dso_symbols_scns]
    simp only [hsym, Bool.false_eq_true, if_false, elf_getdata, hdata, elf_symbols, hent, h1]
    exact dso_symbols_scns_skip _ elf _ post st1 hpost
  unfold dso_symbols
  simp only [hB, if_false, hrun]
  simp only [List.drop_zero, Nat.zero_add, Option.getD, List.take_zero, List.nil_append] at h4 h5
  unfold symtab_funcs
  rw [h4, h5]

/-- C12 (as amended): names are stored as they are found, the empty
string included.  In an image with non-zero load bias and one readable
symbol table, with every list growth succeeding, a function-typed entry
whose string-table name is `s` yields an entry of the returned list with
name `s`; and for a stapsdt record of type 3 with non-zero first address
whose probe-name string is empty (the terminator of the provider is
followed by a terminator), with at least one byte in the provider or
after the probe name, the loop body of `dso_sdt_notes` appends an entry
with the empty name, and `dso_sdt_notes` returns count 1 with that entry
when the record is the whole content of the section. -/
theorem names_stored_as_found :
    (∀ (elf : Elf) (symbols : Option (List dso_symbol)) (sym0 : GElf_Sym)
        (pre post : List Elf_Scn) (scn : Elf_Scn) (d : Elf_Data) (sym : GElf_Sym)
        (s : List Nat),
        find_load_address elf ≠ 0 →
        elf.scns = pre ++ scn :: post →
        (∀ x ∈ pre, x.shdr.sh_type ≠ SHT_SYMTAB) →
        (∀ x ∈ post, x.shdr.sh_type ≠ SHT_SYMTAB) →
        scn.shdr.sh_type = SHT_SYMTAB →
        scn.data = some d →
        scn.shdr.sh_entsize ≠ 0 →
        scn.shdr.sh_size / scn.shdr.sh_entsize ≤ d.syms.length →
        scn.shdr.sh_size / scn.shdr.sh_entsize ≤ INT_MAX →
        (∀ x ∈ symtab_funcs scn.shdr d,
          (elf.strptr scn.shdr.sh_link x.st_name).isSome = true) →
        sym ∈ symtab_funcs scn.shdr d →
        elf.strptr scn.shdr.sh_link sym.st_name = some s →
        ∃ L, dso_symbols (fun _ => true) symbols elf sym0 = some (L.length, some L)
          ∧ ⟨s, vaddr_sub sym.st_value (find_load_address elf)⟩ ∈ L)
      ∧ (∀ (alloc : Nat → Bool) (elf : Elf) (host : ElfData) (d : Elf_Data)
          (st : NoteState) (r : NoteRec) (pre A0 A1 A2 P rest post : List Nat),
          note_name_ok d.d_buf r = true →
          r.nhdr.n_type = SDT_NOTE_TYPE →
          d.d_buf = pre ++ ((A0 ++ (A1 ++ A2)) ++ (P ++ 0 :: ([] ++ 0 :: (rest ++ post)))) →
          pre.length = r.desc_off →
          r.nhdr.n_descsz = 3 * addr_size elf.ei_class + P.length + 1 + 0 + 1 + rest.length →
          A0.length = addr_size elf.ei_class → A1.length = addr_size elf.ei_class →
          A2.length = addr_size elf.ei_class →
          (∀ b ∈ P, b ≠ 0) →
          decode elf.ei_data A0 ≠ 0 → r.nhdr.n_descsz < 2 ^ 32 →
          st.symbols_count ≤ (st.symbols.getD []).length →
          alloc st.calls = true →
          1 ≤ P.length + rest.length →
          ∃ vaddr, vaddr ≠ 0
            ∧ dso_sdt_notes_body alloc elf host d.d_buf r st
                = some (false,
                    ⟨some ((st.symbols.getD []).take st.symbols_count ++ [⟨[], vaddr⟩]),
                     st.symbols_count + 1, st.calls + 1⟩)
            ∧ (∀ (symbols : Option (List dso_symbol)) (shdr0 shdr : GElf_Shdr)
                (scn : Elf_Scn),
                st = ⟨symbols, 0, 0⟩ →
                elf_section_by_name elf shdr0 SDT_NOTE_SCN = some (some scn, shdr) →
                shdr.sh_type = SHT_NOTE → shdr.sh_flags &&& SHF_ALLOC = 0 →
                scn.data = some d →
                gelf_getnote host (some d) 0 = some r →
                gelf_getnote host (some d) r.next = none →
                dso_sdt_notes alloc symbols elf host shdr0
                  = some (1, some [⟨[], vaddr⟩]))) := by
  constructor
  · intro elf symbols sym0 pre post scn d sym s hB hscns hpre hpost htype hdata hent hcount
      hmax hnames hsym hs
    have hrun := dso_symbols_single_table elf symbols sym0 pre post scn d hB hscns hpre hpost
      htype hdata hent hcount hmax hnames
    have hentry : symbol_entry elf (find_load_address elf) scn.shdr sym
        = ⟨s, vaddr_sub sym.st_value (find_load_address elf)⟩ := by
      simp [symbol_entry, hs]
    have hmem : (⟨s, vaddr_sub sym.st_value (find_load_address elf)⟩ : dso_symbol)
        ∈ (symtab_funcs scn.shdr d).map (symbol_entry elf (find_load_address elf) scn.shdr) := by
      rw [← hentry]
      exact List.mem_map_of_mem _ hsym
    have hne : (symtab_funcs scn.shdr d).map
        (symbol_entry elf (find_load_address elf) scn.shdr) ≠ [] :=
      List.ne_nil_of_mem hmem
    refine ⟨_, ?_, hmem⟩
    rw [hrun, if_neg hne]
  · intro alloc elf host d st r pre A0 A1 A2 P rest post hname htype hbuf hpre
      hdesc h0 h1 h2 hP hpc hsz hinv halloc hmin
    have hmin2 : 1 ≤ P.length + ([] : List Nat).length + rest.length := by simpa using hmin
    obtain ⟨vaddr, hv0, hbody⟩ := dso_sdt_notes_record_body alloc elf host d.d_buf st r
      pre A0 A1 A2 P [] rest post hname htype hbuf hpre hdesc h0 h1 h2 hP (by simp) hpc hsz
      hinv halloc
    rw [if_pos hmin2] at hbody
    refine ⟨vaddr, hv0, hbody, ?_⟩
    intro symbols shdr0 shdr scn hst hsec hty hfl hdata hg hlast
    subst hst
    have h := dso_sdt_notes_single_record alloc symbols elf host shdr0 shdr scn d r _
      hsec hty hfl hdata hg hlast hbody
    simpa using h

theorem names_stored_as_found_witness :
    (∃ L, dso_symbols (fun _ => true) none elf_empty_name ⟨0, 0, 0⟩ = some (L.length, some L)
        ∧ ⟨[], vaddr_sub 0x401000 (find_load_address elf_empty_name)⟩ ∈ L)
      ∧ ∃ vaddr, vaddr ≠ 0
          ∧ dso_sdt_notes_body (fun _ => true)
              (elf_notes .ELFCLASS64 .ELFDATA2LSB notes_empty_probe) .ELFDATA2LSB
              notes_empty_probe ⟨52, ⟨8, 31, 3⟩, 12, 20⟩ ⟨none, 0, 0⟩
            = some (false, ⟨some [⟨[], vaddr⟩], 1, 1⟩)
          ∧ dso_sdt_notes (fun _ => true) none
              (elf_notes .ELFCLASS64 .ELFDATA2LSB notes_empty_probe) .ELFDATA2LSB
              ⟨0, 0, 0, 0, 0, 0⟩ = some (1, some [⟨[], vaddr⟩]) := by
  refine ⟨names_stored_as_found.1 elf_empty_name none ⟨0, 0, 0⟩ [] [strtab_scn]
      symtab_empty_name ⟨[], [⟨0, 0x12, 0x401000⟩, ⟨11, 0x12, 0x402000⟩]⟩ ⟨0, 0x12, 0x401000⟩ []
      (by decide) rfl (by decide) (by decide) rfl rfl (by decide) (by decide) (by decide)
      (by decide) (by decide) (by decide), ?_⟩
  obtain ⟨vaddr, hv0, hbody, htop⟩ := names_stored_as_found.2 (fun _ => true)
      (elf_notes .ELFCLASS64 .ELFDATA2LSB notes_empty_probe) .ELFDATA2LSB
      ⟨notes_empty_probe, []⟩ ⟨none, 0, 0⟩ ⟨52, ⟨8, 31, 3⟩, 12, 20⟩
      (notes_empty_probe.take 20)
      (encode .ELFDATA2LSB 8 0x401136) (encode .ELFDATA2LSB 8 0x402004)
      (encode .ELFDATA2LSB 8 0) (cstr "test") [0] (notes_empty_probe.drop 51)
      (by decide) rfl (by decide) (by decide) (by decide) (by decide) (by decide)
      (by decide) (by decide) (by decide) (by decide) (by decide) rfl (by decide)
  exact ⟨vaddr, hv0, hbody,
    htop none ⟨0, 0, 0, 0, 0, 0⟩ (note_shdr notes_empty_probe.length)
      ⟨note_shdr notes_empty_probe.length, some ⟨notes_empty_probe, []⟩⟩ rfl
      (by decide) rfl (by decide) rfl (by decide) (by decide)⟩

/-! ### Failing inputs found in revision -/

/-- C2 (failing input): in the image loaded at 0x400000 with two symbol
tables, the function symbol `low` of the second table has value
0x402000, that is bias + 0x2000, so it is due in the list with address
0x2000; `dso_symbols`, with every list growth succeeding, returns two
entries both of address 0x1000, and none of address 0x2000: the second
table is read through the stale data descriptor of the first. -/
theorem dso_symbols_second_table_address_missing :
    find_load_address elf_two_symtabs = 0x400000
      ∧ symtab_second.shdr.sh_type = SHT_SYMTAB
      ∧ symtab_second.data = some ⟨[], [⟨11, 0x12, 0x402000⟩]⟩
      ∧ is_func ⟨11, 0x12, 0x402000⟩ = true
      ∧ vaddr_sub 0x402000 (find_load_address elf_two_symtabs) = 0x2000
      ∧ (dso_symbols (fun _ => true) none elf_two_symtabs ⟨0, 0, 0⟩).map
          (fun p => (p.2.getD []).map (fun e => e.addr)) = some [0x1000, 0x1000] := by
  decide

/-- C13 (failing input): the section-name string table is readable, no
section is named `.note.stapsdt`, and the first section has a name
offset for which `elf_strptr` returns `NULL`; `elf_section_by_name`
passes that `NULL` to `strcmp`, so `dso_sdt_notes` is undefined instead
of returning count 0. -/
theorem dso_sdt_notes_unresolved_section_name :
    (elf_rawdata (elf_getscn elf_bad_section_name elf_bad_section_name.e_shstrndx)).isSome
        = true
      ∧ (∀ scn ∈ elf_bad_section_name.scns,
          elf_bad_section_name.strptr elf_bad_section_name.e_shstrndx scn.shdr.sh_name
            ≠ some SDT_NOTE_SCN)
      ∧ elf_bad_section_name.strptr elf_bad_section_name.e_shstrndx 99 = none
      ∧ dso_sdt_notes (fun _ => true) none elf_bad_section_name .ELFDATA2LSB
          ⟨0, 0, 0, 0, 0, 0⟩ = none := by
  decide

/-- C14 (failing input): the section-name string table is readable and
the second section is named `.shstrtab`, but the first section has a name
offset for which `elf_strptr` returns `NULL`; the loop of
`elf_section_by_name` calls `strcmp` with that `NULL` before it reaches
the second section, so the lookup of `.shstrtab` is undefined instead of
returning that section. -/
theorem elf_section_by_name_unresolved_name_ahead :
    (elf_rawdata (elf_getscn elf_bad_section_name elf_bad_section_name.e_shstrndx)).isSome
        = true
      ∧ elf_bad_section_name.scns[1]? = some shstrtab_scn
      ∧ elf_bad_section_name.strptr elf_bad_section_name.e_shstrndx shstrtab_scn.shdr.sh_name
          = some (cstr ".shstrtab")
      ∧ elf_section_by_name elf_bad_section_name ⟨0, 0, 0, 0, 0, 0⟩ (cstr ".shstrtab")
          = none := by
  decide

end Ktap
